import Mathlib

/-!
# Inputs channel of the SPICE server (`server/inputs-channel.c`)

A shallow embedding of the keyboard tracker, the message handler, the
motion-ack counter and the migration hand-off of `server/inputs-channel.c`,
followed by theorems about them.

Conventions of the embedding:

* machine integers are `Nat` (unsigned) or `Int` (signed); a `uint8_t`
  parameter is reduced `% 256`, the `uint16_t` motion counter `% 65536`;
* a nullable pointer is an `Option`;
* calls into a device back-end, into the server (`reds_*`) and onto the
  client's pipe are recorded, oldest first, in log fields of the state;
* the model holds one channel together with one of its clients.
-/

namespace Spice

/-! ## Keyboard tracker -/

/-- The tracker of `struct SpiceKbdState`: `bool push_ext; bool key[0x7f];
bool key_ext[0x7f];`.  Both arrays have `0x7f` elements, so their valid
indices are `0 .. 0x7e`. -/
structure SpiceKbdState where
  push_ext : Bool
  key : Fin 0x7f → Bool
  key_ext : Fin 0x7f → Bool

/-- The state `spice_kbd_state_new` returns: `spice_new0` zero-fills it. -/
def spice_kbd_state_new : SpiceKbdState :=
  { push_ext := false, key := fun _ => false, key_ext := fun _ => false }

/-- The store `state[i] = v` into an array of `0x7f` elements.  An index
outside `0 .. 0x7e` names no element of the array: no element changes, and
the caller records the overrun.  Where the compiled code puts such a store
(the byte after the array, so `key[0x7f]` would be `key_ext[0]`) is left out
of the model: C gives it no meaning, and no theorem below follows the array
contents across such a store. -/
def array_store (a : Fin 0x7f → Bool) (i : Nat) (v : Bool) : Fin 0x7f → Bool :=
  fun j => if j.val = i then v else a j

/-- A keyboard instance (`SpiceKbdInstance`): its tracker `st`, and the
back-end behind `sif`.
* `leds` is what `sif->get_leds` answers;
* `pushed` logs the bytes handed to `sif->push_scan_freg`, oldest first;
* `overrun` is set once a store of `kbd_push_scan` has landed past the end of
  `key` or `key_ext`; the C language gives the array contents no meaning from
  then on. -/
structure SpiceKbdInstance where
  st : SpiceKbdState
  leds : Nat
  pushed : List Nat
  overrun : Bool

/-- Tracker update of `kbd_push_scan` for an attached keyboard: lines
209-218.  `scan` is the `uint8_t` parameter. -/
def kbd_push_scan_attached (sin : SpiceKbdInstance) (scan : Nat) : SpiceKbdInstance :=
  let scan := scan % 256
  if scan = 0xe0 then
    { sin with
      st := { sin.st with push_ext := true }
      pushed := sin.pushed ++ [scan] }
  else
    let idx := scan &&& 0x7f
    let v := decide (scan &&& 0x80 = 0)
    { sin with
      st :=
        if sin.st.push_ext then
          { sin.st with push_ext := false, key := array_store sin.st.key idx v }
        else
          { sin.st with push_ext := false, key_ext := array_store sin.st.key_ext idx v }
      pushed := sin.pushed ++ [scan]
      overrun := sin.overrun || decide (¬ idx < 0x7f) }

/-- The function `kbd_push_scan`: nothing happens on a null instance. -/
def kbd_push_scan (sin : Option SpiceKbdInstance) (scan : Nat) : Option SpiceKbdInstance :=
  match sin with
  | none => none
  | some k => some (kbd_push_scan_attached k scan)

/-- The function `kbd_get_leds`: `0` on a null instance. -/
def kbd_get_leds (sin : Option SpiceKbdInstance) : Nat :=
  match sin with
  | none => 0
  | some k => k.leds % 256

/-- First loop of `inputs_release_keys` (lines 475-481), from index `i` for
at most `n` more rounds. -/
def release_key_loop : Nat → Nat → SpiceKbdInstance → SpiceKbdInstance
  | 0, _, k => k
  | n + 1, i, k =>
    if h : i < 0x7f then
      if k.st.key ⟨i, h⟩ then
        let k1 := { k with st := { k.st with key := array_store k.st.key i false } }
        release_key_loop n (i + 1) (kbd_push_scan_attached k1 (i ||| 0x80))
      else
        release_key_loop n (i + 1) k
    else k

/-- Second loop of `inputs_release_keys` (lines 483-490). -/
def release_key_ext_loop : Nat → Nat → SpiceKbdInstance → SpiceKbdInstance
  | 0, _, k => k
  | n + 1, i, k =>
    if h : i < 0x7f then
      if k.st.key_ext ⟨i, h⟩ then
        let k1 := { k with st := { k.st with key_ext := array_store k.st.key_ext i false } }
        release_key_ext_loop n (i + 1)
          (kbd_push_scan_attached (kbd_push_scan_attached k1 0xe0) (i ||| 0x80))
      else
        release_key_ext_loop n (i + 1) k
    else k

/-- Body of `inputs_release_keys` once the keyboard is known to be present. -/
def release_keys_attached (k : SpiceKbdInstance) : SpiceKbdInstance :=
  release_key_ext_loop 0x7f 0 (release_key_loop 0x7f 0 k)

/-- Feeding a sequence of scancode bytes, one `kbd_push_scan` per byte. -/
def feed_scancodes (k : SpiceKbdInstance) (bytes : List Nat) : SpiceKbdInstance :=
  bytes.foldl kbd_push_scan_attached k

/-- A keyboard as `inputs_channel_set_keyboard` leaves it: fresh tracker,
nothing pushed yet. -/
def keyboard_attached (leds : Nat) : SpiceKbdInstance :=
  { st := spice_kbd_state_new, leds := leds, pushed := [], overrun := false }

/-! ## Protocol constants -/

/-- Modelled from the spec: the button masks of the wire protocol, section 6
(`LEFT=0x01, MIDDLE=0x02, RIGHT=0x04`); the header defining
`SPICE_MOUSE_BUTTON_MASK_LEFT` is not part of these sources. -/
def SPICE_MOUSE_BUTTON_MASK_LEFT : Nat := 0x01

/-- Modelled from the spec: see `SPICE_MOUSE_BUTTON_MASK_LEFT`. -/
def SPICE_MOUSE_BUTTON_MASK_MIDDLE : Nat := 0x02

/-- Modelled from the spec: see `SPICE_MOUSE_BUTTON_MASK_LEFT`. -/
def SPICE_MOUSE_BUTTON_MASK_RIGHT : Nat := 0x04

/-- Modelled from the spec: the motion-ack bunch, section 4.5 (`ACK_BUNCH = 64`);
the header defining `SPICE_INPUT_MOTION_ACK_BUNCH` is not part of these
sources. -/
def SPICE_INPUT_MOTION_ACK_BUNCH : Nat := 64

def SCROLL_LOCK_SCAN_CODE : Nat := 0x46
def NUM_LOCK_SCAN_CODE : Nat := 0x45
def CAPS_LOCK_SCAN_CODE : Nat := 0x3a

/-- What the handler takes from protocol headers that are not part of these
sources and whose values the spec does not give: they are parameters of the
model. -/
structure Protocol where
  /-- Button number `SPICE_MOUSE_BUTTON_UP` (wheel up). -/
  SPICE_MOUSE_BUTTON_UP : Nat
  /-- Button number `SPICE_MOUSE_BUTTON_DOWN` (wheel down). -/
  SPICE_MOUSE_BUTTON_DOWN : Nat
  VD_AGENT_LBUTTON_MASK : Nat
  VD_AGENT_MBUTTON_MASK : Nat
  VD_AGENT_RBUTTON_MASK : Nat
  VD_AGENT_UBUTTON_MASK : Nat
  VD_AGENT_DBUTTON_MASK : Nat
  SPICE_KEYBOARD_MODIFIER_FLAGS_SCROLL_LOCK : Nat
  SPICE_KEYBOARD_MODIFIER_FLAGS_NUM_LOCK : Nat
  SPICE_KEYBOARD_MODIFIER_FLAGS_CAPS_LOCK : Nat
  SPICE_MIGRATE_DATA_INPUTS_MAGIC : Nat
  SPICE_MIGRATE_DATA_INPUTS_VERSION : Nat
  /-- The check `migration_protocol_validate_header (header, magic, version)`,
  applied to the header's magic and version and to the expected pair. -/
  migration_protocol_validate_header : Nat → Nat → Nat → Nat → Bool

/-- The macro `RED_MOUSE_STATE_TO_LOCAL`. -/
def RED_MOUSE_STATE_TO_LOCAL (state : Nat) : Nat :=
  (state &&& SPICE_MOUSE_BUTTON_MASK_LEFT) |||
  ((state &&& SPICE_MOUSE_BUTTON_MASK_MIDDLE) <<< 1) |||
  ((state &&& SPICE_MOUSE_BUTTON_MASK_RIGHT) >>> 1)

/-- The macro `RED_MOUSE_BUTTON_STATE_TO_AGENT`. -/
def RED_MOUSE_BUTTON_STATE_TO_AGENT (P : Protocol) (state : Nat) : Nat :=
  (if state &&& SPICE_MOUSE_BUTTON_MASK_LEFT ≠ 0 then P.VD_AGENT_LBUTTON_MASK else 0) |||
  (if state &&& SPICE_MOUSE_BUTTON_MASK_MIDDLE ≠ 0 then P.VD_AGENT_MBUTTON_MASK else 0) |||
  (if state &&& SPICE_MOUSE_BUTTON_MASK_RIGHT ≠ 0 then P.VD_AGENT_RBUTTON_MASK else 0)

/-! ## Channel state -/

/-- Modelled from the spec: the server-global mouse mode, section 4.4
(`SERVER` or `CLIENT`); its declaration is not part of these sources. -/
inductive MouseMode where
  | SERVER
  | CLIENT
  deriving DecidableEq, Repr

/-- The record `VDAgentMouseState`. -/
structure VDAgentMouseState where
  x : Nat
  y : Nat
  buttons : Nat
  display_id : Nat
  deriving DecidableEq, Repr

/-- A call on the mouse back-end (`SpiceMouseInterface`). -/
inductive MouseCall where
  | motion (dx dy dz : Int) (buttons_state : Nat)
  | buttons (buttons_state : Nat)
  deriving DecidableEq, Repr

/-- A call on the tablet back-end (`SpiceTabletInterface`). -/
inductive TabletCall where
  | position (x y : Nat) (buttons_state : Nat)
  | wheel (dz : Int) (buttons_state : Nat)
  | buttons (buttons_state : Nat)
  | set_logical_size (x_res y_res : Int)
  deriving DecidableEq, Repr

/-- A mouse instance: the calls its back-end has received, oldest first. -/
structure SpiceMouseInstance where
  calls : List MouseCall
  deriving DecidableEq, Repr

/-- A tablet instance: the calls its back-end has received, oldest first. -/
structure SpiceTabletInstance where
  calls : List TabletCall
  deriving DecidableEq, Repr

/-- The pipe item types of the channel, with the payload two of them carry. -/
inductive PipeItem where
  | INPUTS_INIT (modifiers : Nat)
  | MOUSE_MOTION_ACK
  | KEY_MODIFIERS (modifiers : Nat)
  | MIGRATE_DATA
  deriving DecidableEq, Repr

/-- The record `InputsChannelClient`: the `uint16_t motion_count`, and the
items added to the client's pipe, oldest first. -/
structure InputsChannelClient where
  motion_count : Nat
  pipe : List PipeItem
  deriving DecidableEq, Repr

/-- The record `InputsChannel`.  `connected` is what `red_channel_is_connected`
answers for the base channel. -/
structure InputsChannel where
  mouse_state : VDAgentMouseState
  src_during_migrate : Bool
  keyboard : Option SpiceKbdInstance
  mouse : Option SpiceMouseInstance
  tablet : Option SpiceTabletInstance
  connected : Bool

/-- The part of `RedsState` the channel consults (`reds_get_mouse_mode`,
`reds_get_agent_mouse`, `reds_has_vdagent`) and the calls it makes on it:
`agent_events` logs `reds_handle_agent_mouse_event`, `timer_starts` counts
the starts of `key_modifiers_timer`. -/
structure RedsState where
  mouse_mode : MouseMode
  agent_mouse : Bool
  has_vdagent : Bool
  agent_events : List VDAgentMouseState
  timer_starts : Nat
  deriving DecidableEq, Repr

/-- One channel, one of its clients, and the server they belong to. -/
structure Inputs where
  channel : InputsChannel
  icc : InputsChannelClient
  reds : RedsState

/-- Client messages the switch of `inputs_channel_handle_parsed` has a case
for.  Integer fields hold the value received. -/
inductive Msg where
  | KEY_DOWN (code : Nat)
  | KEY_UP (code : Nat)
  | KEY_SCANCODE (bytes : List Nat)
  | MOUSE_MOTION (dx dy : Int) (buttons_state : Nat)
  | MOUSE_POSITION (x y : Nat) (buttons_state : Nat) (display_id : Nat)
  | MOUSE_PRESS (button : Nat) (buttons_state : Nat)
  | MOUSE_RELEASE (button : Nat) (buttons_state : Nat)
  | KEY_MODIFIERS (modifiers : Nat)
  | DISCONNECTING
  deriving DecidableEq, Repr

/-- The payload of `SPICE_MSG_MIGRATE_DATA`: header, then `motion_count`. -/
structure MigrateData where
  magic : Nat
  version : Nat
  motion_count : Nat
  deriving DecidableEq, Repr

/-! ## Message handler -/

/-- The function `activate_modifiers_watch`: (re)starts the timer. -/
def activate_modifiers_watch (s : Inputs) : Inputs :=
  { s with reds := { s.reds with timer_starts := s.reds.timer_starts + 1 } }

/-- The block shared by `MOUSE_MOTION` and `MOUSE_POSITION` (lines 340-344 and
358-362): pre-increment of the `uint16_t` counter, then ack and reset when
the new value is a multiple of the bunch and the channel is not a migration
source. -/
def bump_motion_count (s : Inputs) : Inputs :=
  let c := (s.icc.motion_count + 1) % 65536
  if c % SPICE_INPUT_MOTION_ACK_BUNCH = 0 ∧ s.channel.src_during_migrate = false then
    { s with icc := { motion_count := 0, pipe := s.icc.pipe ++ [PipeItem.MOUSE_MOTION_ACK] } }
  else
    { s with icc := { s.icc with motion_count := c } }

/-- The loop of the `KEY_UP` case (lines 320-326), from byte `i` for at most
`n` more rounds. -/
def key_code_loop (code : Nat) : Nat → Nat → Option SpiceKbdInstance → Option SpiceKbdInstance
  | 0, _, k => k
  | n + 1, i, k =>
    let c := (code >>> (i * 8)) &&& 0xff
    if c = 0 then k else key_code_loop code n (i + 1) (kbd_push_scan k c)

/-- The `KEY_UP` case. -/
def handle_key_up (s : Inputs) (code : Nat) : Inputs :=
  { s with channel := { s.channel with keyboard := key_code_loop code 4 0 s.channel.keyboard } }

/-- The `KEY_DOWN` case, which falls through to `KEY_UP`. -/
def handle_key_down (s : Inputs) (code : Nat) : Inputs :=
  let s1 :=
    if code = CAPS_LOCK_SCAN_CODE ∨ code = NUM_LOCK_SCAN_CODE ∨ code = SCROLL_LOCK_SCAN_CODE then
      activate_modifiers_watch s
    else s
  handle_key_up s1 code

/-- The `KEY_SCANCODE` case. -/
def handle_key_scancode (s : Inputs) (bytes : List Nat) : Inputs :=
  { s with channel := { s.channel with keyboard := bytes.foldl kbd_push_scan s.channel.keyboard } }

/-- The `MOUSE_MOTION` case. -/
def handle_mouse_motion (s : Inputs) (dx dy : Int) (buttons_state : Nat) : Inputs :=
  let s1 := bump_motion_count s
  match s1.channel.mouse with
  | some m =>
    if s1.reds.mouse_mode = MouseMode.SERVER then
      { s1 with channel := { s1.channel with
          mouse := some { calls := m.calls ++
            [MouseCall.motion dx dy 0 (RED_MOUSE_STATE_TO_LOCAL buttons_state)] } } }
    else s1
  | none => s1

/-- How the `MOUSE_POSITION` case can end without reaching its `break`:
the `spice_assert` of line 366 fails, or line 369 reads `tablet->base.sif`
through a null `tablet`. -/
inductive PositionFault where
  | assertion_failed
  | null_tablet
  deriving DecidableEq, Repr

/-- The `MOUSE_POSITION` case, statement by statement. -/
def handle_mouse_position_checked (P : Protocol) (s : Inputs)
    (x y buttons_state display_id : Nat) : Except PositionFault Inputs :=
  let s1 := bump_motion_count s
  if s1.reds.mouse_mode ≠ MouseMode.CLIENT then Except.ok s1
  else if ¬ ((s1.reds.agent_mouse = true ∧ s1.reds.has_vdagent = true) ∨
      s1.channel.tablet.isSome = true) then Except.error PositionFault.assertion_failed
  else if s1.reds.agent_mouse = false ∨ s1.reds.has_vdagent = false then
    match s1.channel.tablet with
    | some t =>
      Except.ok { s1 with channel := { s1.channel with
        tablet := some { calls := t.calls ++
          [TabletCall.position x y (RED_MOUSE_STATE_TO_LOCAL buttons_state)] } } }
    | none => Except.error PositionFault.null_tablet
  else
    let mouse_state : VDAgentMouseState :=
      { x := x, y := y, buttons := RED_MOUSE_BUTTON_STATE_TO_AGENT P buttons_state,
        display_id := display_id }
    Except.ok { s1 with
      channel := { s1.channel with mouse_state := mouse_state }
      reds := { s1.reds with agent_events := s1.reds.agent_events ++ [mouse_state] } }

/-- The `MOUSE_POSITION` case as the handler sees it: the state afterwards,
or `none` when the case does not return. -/
def handle_mouse_position (P : Protocol) (s : Inputs) (x y buttons_state display_id : Nat) :
    Option Inputs :=
  match handle_mouse_position_checked P s x y buttons_state display_id with
  | Except.ok s1 => some s1
  | Except.error _ => none

/-- The `MOUSE_PRESS` case. -/
def handle_mouse_press (P : Protocol) (s : Inputs) (button buttons_state : Nat) : Inputs :=
  let dz : Int :=
    if button = P.SPICE_MOUSE_BUTTON_UP then -1
    else if button = P.SPICE_MOUSE_BUTTON_DOWN then 1
    else 0
  if s.reds.mouse_mode = MouseMode.CLIENT then
    if s.reds.agent_mouse = true ∧ s.reds.has_vdagent = true then
      let mouse_state := { s.channel.mouse_state with
        buttons := RED_MOUSE_BUTTON_STATE_TO_AGENT P buttons_state |||
          (if dz = -1 then P.VD_AGENT_UBUTTON_MASK else 0) |||
          (if dz = 1 then P.VD_AGENT_DBUTTON_MASK else 0) }
      { s with
        channel := { s.channel with mouse_state := mouse_state }
        reds := { s.reds with agent_events := s.reds.agent_events ++ [mouse_state] } }
    else
      match s.channel.tablet with
      | some t =>
        { s with channel := { s.channel with
          tablet := some { calls := t.calls ++
            [TabletCall.wheel dz (RED_MOUSE_STATE_TO_LOCAL buttons_state)] } } }
      | none => s
  else
    match s.channel.mouse with
    | some m =>
      { s with channel := { s.channel with
        mouse := some { calls := m.calls ++
          [MouseCall.motion 0 0 dz (RED_MOUSE_STATE_TO_LOCAL buttons_state)] } } }
    | none => s

/-- The `MOUSE_RELEASE` case. -/
def handle_mouse_release (P : Protocol) (s : Inputs) (buttons_state : Nat) : Inputs :=
  if s.reds.mouse_mode = MouseMode.CLIENT then
    if s.reds.agent_mouse = true ∧ s.reds.has_vdagent = true then
      let mouse_state := { s.channel.mouse_state with
        buttons := RED_MOUSE_BUTTON_STATE_TO_AGENT P buttons_state }
      { s with
        channel := { s.channel with mouse_state := mouse_state }
        reds := { s.reds with agent_events := s.reds.agent_events ++ [mouse_state] } }
    else
      match s.channel.tablet with
      | some t =>
        { s with channel := { s.channel with
          tablet := some { calls := t.calls ++
            [TabletCall.buttons (RED_MOUSE_STATE_TO_LOCAL buttons_state)] } } }
      | none => s
  else
    match s.channel.mouse with
    | some m =>
      { s with channel := { s.channel with
        mouse := some { calls := m.calls ++
          [MouseCall.buttons (RED_MOUSE_STATE_TO_LOCAL buttons_state)] } } }
    | none => s

/-- One lock key of the `KEY_MODIFIERS` case: press and release of `code`
when the client's bit and the LED bit differ. -/
def sync_lock_key (modifiers leds flag code : Nat) (k : SpiceKbdInstance) : SpiceKbdInstance :=
  if modifiers &&& flag ≠ leds &&& flag then
    kbd_push_scan_attached (kbd_push_scan_attached k code) (code ||| 0x80)
  else k

/-- The `KEY_MODIFIERS` case; `modifiers` is the value received. -/
def handle_key_modifiers (P : Protocol) (s : Inputs) (modifiers : Nat) : Inputs :=
  match s.channel.keyboard with
  | none => s
  | some keyboard =>
    let leds := kbd_get_leds (some keyboard)
    let k1 := sync_lock_key modifiers leds P.SPICE_KEYBOARD_MODIFIER_FLAGS_SCROLL_LOCK
      SCROLL_LOCK_SCAN_CODE keyboard
    let k2 := sync_lock_key modifiers leds P.SPICE_KEYBOARD_MODIFIER_FLAGS_NUM_LOCK
      NUM_LOCK_SCAN_CODE k1
    let k3 := sync_lock_key modifiers leds P.SPICE_KEYBOARD_MODIFIER_FLAGS_CAPS_LOCK
      CAPS_LOCK_SCAN_CODE k2
    activate_modifiers_watch { s with channel := { s.channel with keyboard := some k3 } }

/-- The function `inputs_channel_handle_parsed` on the message types it has a
case for.  Each of these cases ends in `return TRUE`, which `some` stands
for; `none` is a `MOUSE_POSITION` case that does not return. -/
def inputs_channel_handle_parsed (P : Protocol) (s : Inputs) : Msg → Option Inputs
  | Msg.KEY_DOWN code => some (handle_key_down s code)
  | Msg.KEY_UP code => some (handle_key_up s code)
  | Msg.KEY_SCANCODE bytes => some (handle_key_scancode s bytes)
  | Msg.MOUSE_MOTION dx dy b => some (handle_mouse_motion s dx dy b)
  | Msg.MOUSE_POSITION x y b d => handle_mouse_position P s x y b d
  | Msg.MOUSE_PRESS button b => some (handle_mouse_press P s button b)
  | Msg.MOUSE_RELEASE _ b => some (handle_mouse_release P s b)
  | Msg.KEY_MODIFIERS m => some (handle_key_modifiers P s m)
  | Msg.DISCONNECTING => some s

/-- Handling a sequence of messages in arrival order. -/
def handle_messages (P : Protocol) (s : Inputs) : List Msg → Option Inputs
  | [] => some s
  | m :: ms =>
    match inputs_channel_handle_parsed P s m with
    | some s1 => handle_messages P s1 ms
    | none => none

/-! ## Disconnect, LED push and migration -/

/-- The function `inputs_release_keys`. -/
def inputs_release_keys (c : InputsChannel) : InputsChannel :=
  match c.keyboard with
  | none => c
  | some k => { c with keyboard := some (release_keys_attached k) }

/-- The function `inputs_channel_on_disconnect` for a non-null client. -/
def inputs_channel_on_disconnect (s : Inputs) : Inputs :=
  { s with channel := inputs_release_keys s.channel }

/-- The function `inputs_migrate`. -/
def inputs_migrate (s : Inputs) : Inputs :=
  { s with channel := { s.channel with src_during_migrate := true } }

/-- The function `inputs_channel_send_migrate_data`: the state afterwards and
the payload marshalled. -/
def inputs_channel_send_migrate_data (P : Protocol) (s : Inputs) : Inputs × MigrateData :=
  ({ s with channel := { s.channel with src_during_migrate := false } },
   { magic := P.SPICE_MIGRATE_DATA_INPUTS_MAGIC,
     version := P.SPICE_MIGRATE_DATA_INPUTS_VERSION,
     motion_count := s.icc.motion_count })

/-- The function `inputs_channel_push_keyboard_modifiers` (non-null channel);
`modifiers` is a `uint8_t` parameter. -/
def inputs_channel_push_keyboard_modifiers (s : Inputs) (modifiers : Nat) : Inputs :=
  if s.channel.connected = false ∨ s.channel.src_during_migrate = true then s
  else { s with icc := { s.icc with pipe := s.icc.pipe ++ [PipeItem.KEY_MODIFIERS (modifiers % 256)] } }

/-- The function `key_modifiers_sender`, also the timer callback. -/
def key_modifiers_sender (s : Inputs) : Inputs :=
  inputs_channel_push_keyboard_modifiers s (kbd_get_leds s.channel.keyboard)

/-- The loop of `inputs_channel_handle_migrate_data` (lines 613-616), for at
most `fuel` rounds. -/
def migrate_ack_loop : Nat → InputsChannelClient → InputsChannelClient
  | 0, icc => icc
  | fuel + 1, icc =>
    if icc.motion_count ≥ SPICE_INPUT_MOTION_ACK_BUNCH then
      migrate_ack_loop fuel
        { motion_count := icc.motion_count - SPICE_INPUT_MOTION_ACK_BUNCH,
          pipe := icc.pipe ++ [PipeItem.MOUSE_MOTION_ACK] }
    else icc

/-- The function `inputs_channel_handle_migrate_data`: its return value and
the state afterwards.  The loop gets as many rounds as the restored count,
more than it can use since every round takes 64 off. -/
def inputs_channel_handle_migrate_data (P : Protocol) (s : Inputs) (d : MigrateData) :
    Bool × Inputs :=
  if P.migration_protocol_validate_header d.magic d.version
      P.SPICE_MIGRATE_DATA_INPUTS_MAGIC P.SPICE_MIGRATE_DATA_INPUTS_VERSION = false then
    (false, s)
  else
    let s1 := key_modifiers_sender s
    let icc := { s1.icc with motion_count := d.motion_count % 65536 }
    (true, { s1 with icc := migrate_ack_loop icc.motion_count icc })

/-- The part of `inputs_connect` that sets up the new client: counter at
zero, then `inputs_pipe_add_init`. -/
def inputs_connect (channel : InputsChannel) (reds : RedsState) : Inputs :=
  { channel := { channel with connected := true }
    icc := { motion_count := 0, pipe := [PipeItem.INPUTS_INIT (kbd_get_leds channel.keyboard)] }
    reds := reds }

/-- The number of `MOUSE_MOTION_ACK` items in a pipe. -/
def ack_count (pipe : List PipeItem) : Nat :=
  pipe.count PipeItem.MOUSE_MOTION_ACK

/-- The function `inputs_channel_set_keyboard`: its return value and the
channel afterwards.  The instance handed in gets a fresh tracker. -/
def inputs_channel_set_keyboard (c : InputsChannel) (keyboard : SpiceKbdInstance) :
    Int × InputsChannel :=
  if c.keyboard.isSome then (-1, c)
  else (0, { c with keyboard := some { keyboard with st := spice_kbd_state_new } })

/-- The function `inputs_channel_set_mouse`. -/
def inputs_channel_set_mouse (c : InputsChannel) (mouse : SpiceMouseInstance) :
    Int × InputsChannel :=
  if c.mouse.isSome then (-1, c) else (0, { c with mouse := some mouse })

/-- The function `inputs_channel_set_tablet`. -/
def inputs_channel_set_tablet (c : InputsChannel) (tablet : SpiceTabletInstance) :
    Int × InputsChannel :=
  if c.tablet.isSome then (-1, c) else (0, { c with tablet := some tablet })

/-- The function `inputs_channel_detach_tablet`. -/
def inputs_channel_detach_tablet (c : InputsChannel) : InputsChannel :=
  { c with tablet := none }

/-! ## Definitions used to state the claims -/

/-- The four bytes of a key code, least significant first, as the spec lists
them for `KEY_UP`. -/
def code_bytes (code : Nat) : List Nat :=
  [code &&& 0xff, (code >>> 8) &&& 0xff, (code >>> 16) &&& 0xff, (code >>> 24) &&& 0xff]

/-- Whether a message is one of the two that count as motion. -/
def is_motion_msg : Msg → Bool
  | Msg.MOUSE_MOTION _ _ _ => true
  | Msg.MOUSE_POSITION _ _ _ _ => true
  | _ => false

/-- The caller's guarantee for `MOUSE_POSITION`: in `CLIENT` mode the agent
or a tablet is there to take the event. -/
def position_routable (s : Inputs) : Prop :=
  s.reds.mouse_mode = MouseMode.CLIENT →
    (s.reds.agent_mouse = true ∧ s.reds.has_vdagent = true) ∨ s.channel.tablet.isSome = true

/-- The wheel step `dz` of a `MOUSE_PRESS`, as the spec words it: `-1` for
wheel-up, `+1` for wheel-down, else `0`. -/
def press_dz (P : Protocol) (button : Nat) : Int :=
  if button = P.SPICE_MOUSE_BUTTON_UP then -1
  else if button = P.SPICE_MOUSE_BUTTON_DOWN then 1
  else 0

/-- Whether a message is one of the four pointer messages. -/
def is_pointer_msg : Msg → Bool
  | Msg.MOUSE_MOTION _ _ _ => true
  | Msg.MOUSE_POSITION _ _ _ _ => true
  | Msg.MOUSE_PRESS _ _ => true
  | Msg.MOUSE_RELEASE _ _ => true
  | _ => false

/-- The number of calls made so far on the three pointer back-ends: events
posted to the agent, calls on the tablet, calls on the relative mouse. -/
def backend_calls (s : Inputs) : Nat :=
  s.reds.agent_events.length +
  (match s.channel.tablet with
   | some t => t.calls.length
   | none => 0) +
  (match s.channel.mouse with
   | some m => m.calls.length
   | none => 0)

/-- Bitwise inclusion of button masks: every bit of `a` is a bit of `b`. -/
def mask_subset (a b : Nat) : Prop :=
  a &&& b = a

/-- Whether the client's modifiers `m` and the LEDs `l` differ on the lock
bit `flag`. -/
def lock_bit_differs (m l flag : Nat) : Bool :=
  decide (m &&& flag ≠ l &&& flag)

/-- The bytes the spec has `KEY_MODIFIERS` inject for modifiers `m` against
LEDs `l`: press and release (`code`, `code | 0x80`) of every lock key whose
bit differs, in the order scroll-lock, num-lock, caps-lock. -/
def modifier_sync_bytes (P : Protocol) (m l : Nat) : List Nat :=
  (if lock_bit_differs m l P.SPICE_KEYBOARD_MODIFIER_FLAGS_SCROLL_LOCK
    then [0x46, 0x46 ||| 0x80] else []) ++
  (if lock_bit_differs m l P.SPICE_KEYBOARD_MODIFIER_FLAGS_NUM_LOCK
    then [0x45, 0x45 ||| 0x80] else []) ++
  (if lock_bit_differs m l P.SPICE_KEYBOARD_MODIFIER_FLAGS_CAPS_LOCK
    then [0x3a, 0x3a ||| 0x80] else [])

/-- The number of lock bits on which `m` and `l` differ. -/
def differing_lock_bits (P : Protocol) (m l : Nat) : Nat :=
  (if lock_bit_differs m l P.SPICE_KEYBOARD_MODIFIER_FLAGS_SCROLL_LOCK then 1 else 0) +
  (if lock_bit_differs m l P.SPICE_KEYBOARD_MODIFIER_FLAGS_NUM_LOCK then 1 else 0) +
  (if lock_bit_differs m l P.SPICE_KEYBOARD_MODIFIER_FLAGS_CAPS_LOCK then 1 else 0)

/-- No entry of `key` or of `key_ext` is marked pressed. -/
def all_released (st : SpiceKbdState) : Prop :=
  (∀ j, st.key j = false) ∧ (∀ j, st.key_ext j = false)

/-- The number of elements of `key` and of `key_ext`: `SPICE_N_ELEMENTS` of
an array declared with `0x7f` elements. -/
def KEY_ARRAY_ELEMENTS : Nat := 0x7f

/-- A keyboard for the worked examples whose tracker has everything marked
pressed and the extended prefix pending. -/
def example_keyboard_all_pressed : SpiceKbdInstance :=
  { st := { push_ext := true, key := fun _ => true, key_ext := fun _ => true }
    leds := 0, pushed := [], overrun := false }

/-- Protocol constants for the worked examples: button numbers and masks as
in the SPICE protocol headers, and a header check that wants the magic and
the version to be the expected ones. -/
def example_protocol : Protocol :=
  { SPICE_MOUSE_BUTTON_UP := 4
    SPICE_MOUSE_BUTTON_DOWN := 5
    VD_AGENT_LBUTTON_MASK := 2
    VD_AGENT_MBUTTON_MASK := 4
    VD_AGENT_RBUTTON_MASK := 8
    VD_AGENT_UBUTTON_MASK := 16
    VD_AGENT_DBUTTON_MASK := 32
    SPICE_KEYBOARD_MODIFIER_FLAGS_SCROLL_LOCK := 1
    SPICE_KEYBOARD_MODIFIER_FLAGS_NUM_LOCK := 2
    SPICE_KEYBOARD_MODIFIER_FLAGS_CAPS_LOCK := 4
    SPICE_MIGRATE_DATA_INPUTS_MAGIC := 0x53504e49
    SPICE_MIGRATE_DATA_INPUTS_VERSION := 1
    migration_protocol_validate_header := fun magic version m v =>
      decide (magic = m) && decide (version = v) }

/-- A channel for the worked examples: keyboard and mouse attached, no
tablet, not migrating. -/
def example_channel : InputsChannel :=
  { mouse_state := { x := 0, y := 0, buttons := 0, display_id := 0 }
    src_during_migrate := false
    keyboard := some (keyboard_attached 0)
    mouse := some { calls := [] }
    tablet := none
    connected := false }

/-- Server state for the worked examples: `SERVER` mouse mode, no agent. -/
def example_reds : RedsState :=
  { mouse_mode := MouseMode.SERVER, agent_mouse := false, has_vdagent := false,
    agent_events := [], timer_starts := 0 }

/-- A freshly connected client on `example_channel`. -/
def example_inputs : Inputs :=
  inputs_connect example_channel example_reds

/-- Server state for the worked examples: `CLIENT` mouse mode with the agent
in use. -/
def example_reds_agent : RedsState :=
  { mouse_mode := MouseMode.CLIENT, agent_mouse := true, has_vdagent := true,
    agent_events := [], timer_starts := 0 }

/-- Server state for the worked examples: `CLIENT` mouse mode, no agent. -/
def example_reds_client : RedsState :=
  { mouse_mode := MouseMode.CLIENT, agent_mouse := false, has_vdagent := false,
    agent_events := [], timer_starts := 0 }

/-- A channel for the worked examples with nothing attached. -/
def example_channel_bare : InputsChannel :=
  { mouse_state := { x := 7, y := 9, buttons := 16, display_id := 1 }
    src_during_migrate := false
    keyboard := none
    mouse := none
    tablet := none
    connected := true }

/-- A channel for the worked examples with only a tablet attached. -/
def example_channel_tablet : InputsChannel :=
  { example_channel_bare with tablet := some { calls := [] } }

/-- A client for the worked examples on a channel that is a migration
source, one motion short of a bunch. -/
def example_inputs_source : Inputs :=
  { channel := { example_channel with src_during_migrate := true }
    icc := { motion_count := 63, pipe := [] }
    reds := example_reds }

/-- A freshly connected client on a channel like `example_channel`, whose
keyboard back-end reports the LED byte `leds`. -/
def example_inputs_leds (leds : Nat) : Inputs :=
  inputs_connect { example_channel with keyboard := some (keyboard_attached leds) } example_reds

/-! ## Lemmas on the keyboard tracker -/

theorem kbd_push_scan_attached_pushed (k : SpiceKbdInstance) (b : Nat) :
    (kbd_push_scan_attached k b).pushed = k.pushed ++ [b % 256] := by
  unfold kbd_push_scan_attached
  by_cases h : b % 256 = 0xe0 <;> simp [h]

theorem kbd_push_scan_attached_push_ext (k : SpiceKbdInstance) (b : Nat) :
    (kbd_push_scan_attached k b).st.push_ext = decide (b % 256 = 0xe0) := by
  unfold kbd_push_scan_attached
  by_cases h : b % 256 = 0xe0
  · simp [h]
  · by_cases hp : k.st.push_ext = true <;> simp [h, hp]

theorem kbd_push_scan_attached_leds (k : SpiceKbdInstance) (b : Nat) :
    (kbd_push_scan_attached k b).leds = k.leds := by
  unfold kbd_push_scan_attached
  by_cases h : b % 256 = 0xe0 <;> simp [h]

theorem feed_scancodes_append (k : SpiceKbdInstance) (xs ys : List Nat) :
    feed_scancodes k (xs ++ ys) = feed_scancodes (feed_scancodes k xs) ys := by
  simp [feed_scancodes, List.foldl_append]

theorem feed_scancodes_pushed (k : SpiceKbdInstance) (bs : List Nat) :
    (feed_scancodes k bs).pushed = k.pushed ++ bs.map (fun b => b % 256) := by
  induction bs generalizing k with
  | nil => simp [feed_scancodes]
  | cons b bs ih =>
    have h := ih (kbd_push_scan_attached k b)
    simp only [feed_scancodes, List.foldl_cons] at h ⊢
    rw [h, kbd_push_scan_attached_pushed]
    simp

theorem foldl_kbd_push_scan_some (k : SpiceKbdInstance) (bs : List Nat) :
    bs.foldl kbd_push_scan (some k) = some (feed_scancodes k bs) := by
  induction bs generalizing k with
  | nil => simp [feed_scancodes]
  | cons b bs ih =>
    simp only [List.foldl_cons, kbd_push_scan, feed_scancodes]
    exact ih _

theorem foldl_kbd_push_scan_none (bs : List Nat) :
    bs.foldl kbd_push_scan none = none := by
  induction bs with
  | nil => rfl
  | cons b bs ih => simpa [List.foldl_cons, kbd_push_scan] using ih

theorem key_code_loop_eq (code : Nat) (kbd : Option SpiceKbdInstance) :
    key_code_loop code 4 0 kbd
      = ((code_bytes code).takeWhile (fun b => decide (b ≠ 0))).foldl kbd_push_scan kbd := by
  simp only [key_code_loop, code_bytes, Nat.zero_mul, Nat.shiftRight_zero, Nat.zero_add,
    Nat.one_mul, Nat.reduceAdd, Nat.reduceMul, List.takeWhile]
  by_cases h0 : code &&& 0xff = 0
  · simp [h0]
  · by_cases h1 : (code >>> 8) &&& 0xff = 0
    · simp [h0, h1]
    · by_cases h2 : (code >>> 16) &&& 0xff = 0
      · simp [h0, h1, h2]
      · by_cases h3 : (code >>> 24) &&& 0xff = 0 <;> simp [h0, h1, h2, h3]

theorem code_bytes_lt (code b : Nat) (h : b ∈ code_bytes code) : b < 256 := by
  simp only [code_bytes, List.mem_cons, List.mem_singleton, List.not_mem_nil, or_false] at h
  have key : ∀ x : Nat, x &&& 0xff < 256 := fun x =>
    Nat.lt_succ_of_le Nat.and_le_right
  rcases h with h | h | h | h <;> rw [h] <;> exact key _

/-! ## Lemmas on the motion counter -/

theorem bump_motion_count_channel (s : Inputs) : (bump_motion_count s).channel = s.channel := by
  simp only [bump_motion_count]
  split <;> rfl

theorem bump_motion_count_reds (s : Inputs) : (bump_motion_count s).reds = s.reds := by
  simp only [bump_motion_count]
  split <;> rfl

/-- The counter block on a channel that is not a migration source, from a
count below the bunch. -/
theorem bump_motion_count_plain (s : Inputs) (hsrc : s.channel.src_during_migrate = false)
    (hlt : s.icc.motion_count < 64) :
    (bump_motion_count s).icc.motion_count = (s.icc.motion_count + 1) % 64 ∧
    (bump_motion_count s).icc.pipe
      = s.icc.pipe ++ List.replicate ((s.icc.motion_count + 1) / 64) PipeItem.MOUSE_MOTION_ACK := by
  unfold bump_motion_count
  simp only [SPICE_INPUT_MOTION_ACK_BUNCH, hsrc, and_true]
  have h1 : (s.icc.motion_count + 1) % 65536 = s.icc.motion_count + 1 :=
    Nat.mod_eq_of_lt (by omega)
  rw [h1]
  by_cases h : (s.icc.motion_count + 1) % 64 = 0
  · have hd : (s.icc.motion_count + 1) / 64 = 1 := by omega
    simp [h, hd]
  · have hd : (s.icc.motion_count + 1) / 64 = 0 := by omega
    have hm : (s.icc.motion_count + 1) % 64 = s.icc.motion_count + 1 := by omega
    simp [h, hd, hm]

/-- The counter block on a migration source: the count goes up by one and
nothing is added to the pipe. -/
theorem bump_motion_count_source (s : Inputs) (hsrc : s.channel.src_during_migrate = true)
    (hlt : s.icc.motion_count + 1 < 65536) :
    (bump_motion_count s).icc.motion_count = s.icc.motion_count + 1 ∧
    (bump_motion_count s).icc.pipe = s.icc.pipe := by
  unfold bump_motion_count
  simp [hsrc, Nat.mod_eq_of_lt hlt]

/-- What a handled message does to the client record and to the fields that
decide on acks and on routing: only the two motion messages touch the client
record, through the counter block. -/
theorem handle_parsed_frame (P : Protocol) (s s1 : Inputs) (m : Msg)
    (h : inputs_channel_handle_parsed P s m = some s1) :
    s1.icc = (if is_motion_msg m then (bump_motion_count s).icc else s.icc) ∧
    s1.channel.src_during_migrate = s.channel.src_during_migrate ∧
    s1.reds.mouse_mode = s.reds.mouse_mode ∧
    s1.reds.agent_mouse = s.reds.agent_mouse ∧
    s1.reds.has_vdagent = s.reds.has_vdagent ∧
    s1.channel.tablet.isSome = s.channel.tablet.isSome := by
  cases m with
  | KEY_DOWN code =>
    simp only [inputs_channel_handle_parsed, Option.some.injEq] at h
    subst h
    simp only [handle_key_down, handle_key_up, activate_modifiers_watch, is_motion_msg]
    split <;> simp
  | KEY_UP code =>
    simp only [inputs_channel_handle_parsed, Option.some.injEq] at h
    subst h
    simp [handle_key_up, is_motion_msg]
  | KEY_SCANCODE bytes =>
    simp only [inputs_channel_handle_parsed, Option.some.injEq] at h
    subst h
    simp [handle_key_scancode, is_motion_msg]
  | MOUSE_MOTION dx dy b =>
    simp only [inputs_channel_handle_parsed, Option.some.injEq] at h
    subst h
    have hc := bump_motion_count_channel s
    have hr := bump_motion_count_reds s
    simp only [handle_mouse_motion, is_motion_msg]
    split
    · split <;> simp [hc, hr]
    · simp [hc, hr]
  | MOUSE_POSITION x y b d =>
    have hc := bump_motion_count_channel s
    have hr := bump_motion_count_reds s
    simp only [inputs_channel_handle_parsed, handle_mouse_position,
      handle_mouse_position_checked, hc, hr] at h
    simp only [is_motion_msg, if_true]
    cases hm : s.reds.mouse_mode <;> cases ha : s.reds.agent_mouse <;>
      cases hv : s.reds.has_vdagent <;> cases ht : s.channel.tablet <;>
      simp [hm, ha, hv, ht] at h <;> subst h <;> simp [hc, hr, hm, ha, hv, ht]
  | MOUSE_PRESS button b =>
    simp only [inputs_channel_handle_parsed, Option.some.injEq] at h
    subst h
    simp only [handle_mouse_press, is_motion_msg]
    split
    · split
      · simp
      · split
        · rename_i t ht
          simp [ht]
        · simp
    · split <;> simp
  | MOUSE_RELEASE button b =>
    simp only [inputs_channel_handle_parsed, Option.some.injEq] at h
    subst h
    simp only [handle_mouse_release, is_motion_msg]
    split
    · split
      · simp
      · split
        · rename_i t ht
          simp [ht]
        · simp
    · split <;> simp
  | KEY_MODIFIERS mods =>
    simp only [inputs_channel_handle_parsed, Option.some.injEq] at h
    subst h
    simp only [handle_key_modifiers, is_motion_msg]
    split <;> simp [activate_modifiers_watch]
  | DISCONNECTING =>
    simp only [inputs_channel_handle_parsed, Option.some.injEq] at h
    subst h
    simp [is_motion_msg]

/-- The `MOUSE_POSITION` case completes exactly when the caller's guarantee
holds. -/
theorem handle_mouse_position_isSome (P : Protocol) (s : Inputs) (x y b d : Nat) :
    (handle_mouse_position P s x y b d).isSome = true ↔ position_routable s := by
  have hc := bump_motion_count_channel s
  have hr := bump_motion_count_reds s
  simp only [handle_mouse_position, handle_mouse_position_checked, position_routable, hc, hr]
  cases hm : s.reds.mouse_mode <;> cases ha : s.reds.agent_mouse <;>
    cases hv : s.reds.has_vdagent <;> cases ht : s.channel.tablet <;> simp

/-- A message is handled to completion unless it is a `MOUSE_POSITION` that
breaks the caller's guarantee. -/
theorem handle_parsed_isSome (P : Protocol) (s : Inputs) (m : Msg)
    (h : position_routable s) : ∃ s1, inputs_channel_handle_parsed P s m = some s1 := by
  cases m with
  | MOUSE_POSITION x y b d =>
    have := (handle_mouse_position_isSome P s x y b d).mpr h
    exact Option.isSome_iff_exists.mp this
  | _ => exact ⟨_, rfl⟩

/-- The caller's guarantee only reads fields that no message changes. -/
theorem position_routable_congr (s t : Inputs)
    (hm : t.reds.mouse_mode = s.reds.mouse_mode)
    (ha : t.reds.agent_mouse = s.reds.agent_mouse)
    (hv : t.reds.has_vdagent = s.reds.has_vdagent)
    (ht : t.channel.tablet.isSome = s.channel.tablet.isSome) :
    position_routable t ↔ position_routable s := by
  simp only [position_routable, hm, ha, hv, ht]

/-- Two states that agree on the routing fields complete the same sequences
of motion messages. -/
theorem handle_messages_same_outcome (P : Protocol) (msgs : List Msg) :
    ∀ (s t s1 : Inputs),
      t.reds.mouse_mode = s.reds.mouse_mode →
      t.reds.agent_mouse = s.reds.agent_mouse →
      t.reds.has_vdagent = s.reds.has_vdagent →
      t.channel.tablet.isSome = s.channel.tablet.isSome →
      handle_messages P s msgs = some s1 →
      ∃ t1, handle_messages P t msgs = some t1 := by
  induction msgs with
  | nil => intro s t s1 _ _ _ _ _; exact ⟨t, rfl⟩
  | cons m ms ih =>
    intro s t s1 hm ha hv ht h
    simp only [handle_messages] at h ⊢
    cases hs : inputs_channel_handle_parsed P s m with
    | none => rw [hs] at h; exact absurd h (by simp)
    | some s2 =>
      rw [hs] at h
      have ht2 : ∃ t2, inputs_channel_handle_parsed P t m = some t2 := by
        cases m with
        | MOUSE_POSITION x y b d =>
          have h1 : (handle_mouse_position P s x y b d).isSome = true := by
            simp only [inputs_channel_handle_parsed] at hs
            rw [hs]; rfl
          have h2 := (position_routable_congr s t hm ha hv ht).mpr
            ((handle_mouse_position_isSome P s x y b d).mp h1)
          exact Option.isSome_iff_exists.mp ((handle_mouse_position_isSome P t x y b d).mpr h2)
        | _ => exact ⟨_, rfl⟩
      obtain ⟨t2, ht2⟩ := ht2
      rw [ht2]
      have fs := handle_parsed_frame P s s2 m hs
      have ft := handle_parsed_frame P t t2 m ht2
      exact ih s2 t2 s1
        (by rw [ft.2.2.1, fs.2.2.1, hm]) (by rw [ft.2.2.2.1, fs.2.2.2.1, ha])
        (by rw [ft.2.2.2.2.1, fs.2.2.2.2.1, hv]) (by rw [ft.2.2.2.2.2, fs.2.2.2.2.2, ht]) h

/-- Under the caller's guarantee every sequence of messages is handled to
completion. -/
theorem handle_messages_total (P : Protocol) (msgs : List Msg) :
    ∀ s : Inputs, position_routable s → ∃ s1, handle_messages P s msgs = some s1 := by
  induction msgs with
  | nil => intro s _; exact ⟨s, rfl⟩
  | cons m ms ih =>
    intro s h
    obtain ⟨s2, hs⟩ := handle_parsed_isSome P s m h
    simp only [handle_messages, hs]
    have fs := handle_parsed_frame P s s2 m hs
    exact ih s2 ((position_routable_congr s s2 fs.2.2.1 fs.2.2.2.1 fs.2.2.2.2.1 fs.2.2.2.2.2).mpr h)

/-- Motion messages on a channel that is not a migration source: one ack per
completed bunch, and the count is the remainder. -/
theorem handle_messages_plain (P : Protocol) (msgs : List Msg) :
    ∀ (s s1 : Inputs), (∀ m ∈ msgs, is_motion_msg m = true) →
      s.channel.src_during_migrate = false → s.icc.motion_count < 64 →
      handle_messages P s msgs = some s1 →
      s1.icc.motion_count = (s.icc.motion_count + msgs.length) % 64 ∧
      s1.icc.pipe = s.icc.pipe ++
        List.replicate ((s.icc.motion_count + msgs.length) / 64) PipeItem.MOUSE_MOTION_ACK ∧
      s1.channel.src_during_migrate = false := by
  induction msgs with
  | nil =>
    intro s s1 _ hsrc hlt h
    simp only [handle_messages, Option.some.injEq] at h
    subst h
    have h0 : s.icc.motion_count / 64 = 0 := by omega
    simp [Nat.mod_eq_of_lt hlt, h0, hsrc]
  | cons m ms ih =>
    intro s s1 hall hsrc hlt h
    simp only [handle_messages] at h
    cases hs : inputs_channel_handle_parsed P s m with
    | none => rw [hs] at h; exact absurd h (by simp)
    | some s2 =>
      rw [hs] at h
      have fs := handle_parsed_frame P s s2 m hs
      have hm : is_motion_msg m = true := hall m (List.mem_cons_self _ _)
      rw [hm] at fs
      simp only [if_true] at fs
      have hb := bump_motion_count_plain s hsrc hlt
      have hsrc2 : s2.channel.src_during_migrate = false := by rw [fs.2.1, hsrc]
      have hlt2 : s2.icc.motion_count < 64 := by
        rw [fs.1, hb.1]; exact Nat.mod_lt _ (by decide)
      have := ih s2 s1 (fun x hx => hall x (List.mem_cons_of_mem _ hx)) hsrc2 hlt2 h
      obtain ⟨h1, h2, h3⟩ := this
      have e1 : s2.icc.motion_count = (s.icc.motion_count + 1) % 64 := by rw [fs.1, hb.1]
      have e2 : s2.icc.pipe = s.icc.pipe ++
          List.replicate ((s.icc.motion_count + 1) / 64) PipeItem.MOUSE_MOTION_ACK := by
        rw [fs.1, hb.2]
      refine ⟨?_, ?_, h3⟩
      · rw [h1, e1, List.length_cons]; omega
      · rw [h2, e1, e2, List.length_cons, List.append_assoc, List.append_replicate_replicate]
        congr 2
        omega

/-- Motion messages on a migration source: the count grows by one per
message and nothing is added to the pipe. -/
theorem handle_messages_source (P : Protocol) (msgs : List Msg) :
    ∀ (s s1 : Inputs), (∀ m ∈ msgs, is_motion_msg m = true) →
      s.channel.src_during_migrate = true → s.icc.motion_count + msgs.length < 65536 →
      handle_messages P s msgs = some s1 →
      s1.icc.motion_count = s.icc.motion_count + msgs.length ∧
      s1.icc.pipe = s.icc.pipe ∧
      s1.channel.src_during_migrate = true := by
  induction msgs with
  | nil =>
    intro s s1 _ hsrc _ h
    simp only [handle_messages, Option.some.injEq] at h
    subst h
    simp [hsrc]
  | cons m ms ih =>
    intro s s1 hall hsrc hlt h
    simp only [handle_messages] at h
    simp only [List.length_cons] at hlt
    cases hs : inputs_channel_handle_parsed P s m with
    | none => rw [hs] at h; exact absurd h (by simp)
    | some s2 =>
      rw [hs] at h
      have fs := handle_parsed_frame P s s2 m hs
      have hm : is_motion_msg m = true := hall m (List.mem_cons_self _ _)
      rw [hm] at fs
      simp only [if_true] at fs
      have hb := bump_motion_count_source s hsrc (by omega)
      have hsrc2 : s2.channel.src_during_migrate = true := by rw [fs.2.1, hsrc]
      have e1 : s2.icc.motion_count = s.icc.motion_count + 1 := by rw [fs.1, hb.1]
      have e2 : s2.icc.pipe = s.icc.pipe := by rw [fs.1, hb.2]
      obtain ⟨h1, h2, h3⟩ := ih s2 s1 (fun x hx => hall x (List.mem_cons_of_mem _ hx)) hsrc2
        (by rw [e1]; omega) h
      refine ⟨?_, ?_, h3⟩
      · rw [h1, e1, List.length_cons]; omega
      · rw [h2, e2]

/-- The replay loop with enough rounds: one ack per whole bunch of the
restored count, and the remainder is left. -/
theorem migrate_ack_loop_eq (fuel : Nat) :
    ∀ icc : InputsChannelClient, icc.motion_count / 64 ≤ fuel →
      migrate_ack_loop fuel icc =
        { motion_count := icc.motion_count % 64,
          pipe := icc.pipe ++ List.replicate (icc.motion_count / 64) PipeItem.MOUSE_MOTION_ACK } := by
  induction fuel with
  | zero =>
    intro icc h
    have h0 : icc.motion_count / 64 = 0 := by omega
    have h1 : icc.motion_count % 64 = icc.motion_count := by omega
    simp [migrate_ack_loop, h0, h1]
  | succ n ih =>
    intro icc h
    simp only [migrate_ack_loop, SPICE_INPUT_MOTION_ACK_BUNCH]
    by_cases hge : icc.motion_count ≥ 64
    · simp only [hge, if_true]
      rw [ih _ (by simp only; omega)]
      have hd : icc.motion_count / 64 = (icc.motion_count - 64) / 64 + 1 := by omega
      have hm : (icc.motion_count - 64) % 64 = icc.motion_count % 64 := by omega
      simp only [hm, hd, List.append_assoc, InputsChannelClient.mk.injEq, true_and,
        List.append_cancel_left_eq]
      rw [List.replicate_succ]
      rfl
    · have h0 : icc.motion_count / 64 = 0 := by omega
      have h1 : icc.motion_count % 64 = icc.motion_count := by omega
      simp [hge, h0, h1]

/-- The LED push leaves the counter, the channel and the server alone. -/
theorem key_modifiers_sender_frame (s : Inputs) :
    (key_modifiers_sender s).icc.motion_count = s.icc.motion_count ∧
    (key_modifiers_sender s).channel = s.channel ∧
    (key_modifiers_sender s).reds = s.reds ∧
    (key_modifiers_sender s).icc.pipe = s.icc.pipe ++
      (if s.channel.connected = true ∧ s.channel.src_during_migrate = false then
        [PipeItem.KEY_MODIFIERS (kbd_get_leds s.channel.keyboard)] else []) := by
  have hl : kbd_get_leds s.channel.keyboard % 256 = kbd_get_leds s.channel.keyboard := by
    cases hk : s.channel.keyboard <;> simp [kbd_get_leds]
  simp only [key_modifiers_sender, inputs_channel_push_keyboard_modifiers, hl]
  cases hc : s.channel.connected <;> cases hs : s.channel.src_during_migrate <;> simp

/-- With an accepted header, `inputs_channel_handle_migrate_data` pushes the
LEDs, restores the count and replays one ack per whole bunch. -/
theorem handle_migrate_data_accepted (P : Protocol) (s : Inputs) (d : MigrateData)
    (hvalid : P.migration_protocol_validate_header d.magic d.version
      P.SPICE_MIGRATE_DATA_INPUTS_MAGIC P.SPICE_MIGRATE_DATA_INPUTS_VERSION = true)
    (hm : d.motion_count < 65536) :
    (inputs_channel_handle_migrate_data P s d).1 = true ∧
    (inputs_channel_handle_migrate_data P s d).2.icc.motion_count = d.motion_count % 64 ∧
    (inputs_channel_handle_migrate_data P s d).2.icc.pipe =
      s.icc.pipe ++
      (if s.channel.connected = true ∧ s.channel.src_during_migrate = false then
        [PipeItem.KEY_MODIFIERS (kbd_get_leds s.channel.keyboard)] else []) ++
      List.replicate (d.motion_count / 64) PipeItem.MOUSE_MOTION_ACK ∧
    (inputs_channel_handle_migrate_data P s d).2.channel = s.channel ∧
    (inputs_channel_handle_migrate_data P s d).2.reds = s.reds := by
  have hk := key_modifiers_sender_frame s
  have hl := migrate_ack_loop_eq d.motion_count
    { motion_count := d.motion_count, pipe := (key_modifiers_sender s).icc.pipe }
    (Nat.div_le_self _ _)
  simp only [inputs_channel_handle_migrate_data, hvalid, Bool.true_eq_false, if_false,
    Nat.mod_eq_of_lt hm]
  rw [hl]
  simp only [hk.2.1, hk.2.2.1, hk.2.2.2, and_self]

/-- With a rejected header, `inputs_channel_handle_migrate_data` returns
`FALSE` and changes nothing. -/
theorem handle_migrate_data_rejected (P : Protocol) (s : Inputs) (d : MigrateData)
    (hbad : P.migration_protocol_validate_header d.magic d.version
      P.SPICE_MIGRATE_DATA_INPUTS_MAGIC P.SPICE_MIGRATE_DATA_INPUTS_VERSION = false) :
    inputs_channel_handle_migrate_data P s d = (false, s) := by
  simp [inputs_channel_handle_migrate_data, hbad]

theorem ack_count_append_acks (pipe : List PipeItem) (n : Nat) :
    ack_count (pipe ++ List.replicate n PipeItem.MOUSE_MOTION_ACK) = ack_count pipe + n := by
  simp [ack_count, List.count_append]

theorem ack_count_append_key_modifiers (pipe : List PipeItem) (c : Prop) [Decidable c]
    (l : Nat) :
    ack_count (pipe ++ (if c then [PipeItem.KEY_MODIFIERS l] else [])) = ack_count pipe := by
  by_cases h : c <;> simp [ack_count, List.count_append, h]

/-! ## Motion acks and migration: claims C1 to C5 -/

/-- C2: on a channel that is not a migration source, from `motion_count = c`
with `c < 64`, every handled sequence of `n` `MOUSE_MOTION` / `MOUSE_POSITION`
messages adds exactly `(c + n) / 64` `MOUSE_MOTION_ACK` items (and nothing
else) to the pipe and leaves `motion_count = (c + n) mod 64`; and under the
caller's guarantee for `MOUSE_POSITION` the sequence is handled to the end. -/
theorem motion_acks_one_per_bunch (P : Protocol) (s : Inputs) (msgs : List Msg) (c : Nat)
    (hall : ∀ m ∈ msgs, is_motion_msg m = true)
    (hsrc : s.channel.src_during_migrate = false)
    (hc : s.icc.motion_count = c) (hlt : c < 64) :
    (∀ s1, handle_messages P s msgs = some s1 →
      s1.icc.pipe = s.icc.pipe ++
        List.replicate ((c + msgs.length) / 64) PipeItem.MOUSE_MOTION_ACK ∧
      s1.icc.motion_count = (c + msgs.length) % 64) ∧
    (position_routable s → ∃ s1, handle_messages P s msgs = some s1) := by
  subst hc
  refine ⟨fun s1 h => ?_, fun hr => handle_messages_total P msgs s hr⟩
  obtain ⟨h1, h2, _⟩ := handle_messages_plain P msgs s s1 hall hsrc hlt h
  exact ⟨h2, h1⟩

set_option maxRecDepth 100000 in
theorem motion_acks_one_per_bunch_witness :
    (∀ m ∈ List.replicate 64 (Msg.MOUSE_MOTION 3 (-2) 1), is_motion_msg m = true) ∧
    example_inputs.channel.src_during_migrate = false ∧
    example_inputs.icc.motion_count = 0 ∧ 0 < 64 ∧
    ∃ s1, handle_messages example_protocol example_inputs
        (List.replicate 64 (Msg.MOUSE_MOTION 3 (-2) 1)) = some s1 ∧
      s1.icc.pipe = [PipeItem.INPUTS_INIT 0] ++ [PipeItem.MOUSE_MOTION_ACK] ∧
      s1.icc.motion_count = 0 := by
  have hall : ∀ m ∈ List.replicate 64 (Msg.MOUSE_MOTION 3 (-2) 1), is_motion_msg m = true := by
    intro m hm
    rw [List.eq_of_mem_replicate hm]
    rfl
  have hthm := motion_acks_one_per_bunch example_protocol example_inputs
    (List.replicate 64 (Msg.MOUSE_MOTION 3 (-2) 1)) 0 hall rfl rfl (by decide)
  obtain ⟨s1, hs1⟩ := hthm.2 (fun h => absurd h (by decide))
  exact ⟨hall, rfl, rfl, by decide, s1, hs1, (hthm.1 s1 hs1).1, (hthm.1 s1 hs1).2⟩

/-- C3: let a client with `motion_count = c < 64` on a channel that is not a
migration source enter migration, handle `k` motion messages
(`c + k < 65536`) and send `MIGRATE_DATA`, and let a destination that accepts
the header the source writes handle that payload.  Then the source has added
nothing to its pipe, the destination has added `(c + k) / 64` acks and ends
with `motion_count = (c + k) mod 64`; and the same client handling the same
messages without migration completes too, with the same number of acks and
the same count. -/
theorem migration_replays_suppressed_acks (P : Protocol) (s d sk : Inputs) (msgs : List Msg)
    (c k : Nat)
    (hall : ∀ m ∈ msgs, is_motion_msg m = true)
    (hsrc : s.channel.src_during_migrate = false)
    (hc : s.icc.motion_count = c) (hlt : c < 64)
    (hk : msgs.length = k) (hbound : c + k < 65536)
    (hvalid : P.migration_protocol_validate_header
      P.SPICE_MIGRATE_DATA_INPUTS_MAGIC P.SPICE_MIGRATE_DATA_INPUTS_VERSION
      P.SPICE_MIGRATE_DATA_INPUTS_MAGIC P.SPICE_MIGRATE_DATA_INPUTS_VERSION = true)
    (hrun : handle_messages P (inputs_migrate s) msgs = some sk) :
    (inputs_channel_send_migrate_data P sk).1.icc.pipe = s.icc.pipe ∧
    (inputs_channel_handle_migrate_data P d (inputs_channel_send_migrate_data P sk).2).1 = true ∧
    ack_count (inputs_channel_handle_migrate_data P d
        (inputs_channel_send_migrate_data P sk).2).2.icc.pipe
      = ack_count d.icc.pipe + (c + k) / 64 ∧
    (inputs_channel_handle_migrate_data P d
        (inputs_channel_send_migrate_data P sk).2).2.icc.motion_count = (c + k) % 64 ∧
    ∃ p, handle_messages P s msgs = some p ∧
      ack_count p.icc.pipe = ack_count s.icc.pipe + (c + k) / 64 ∧
      p.icc.motion_count = (c + k) % 64 := by
  subst hc hk
  obtain ⟨m1, m2, _⟩ := handle_messages_source P msgs (inputs_migrate s) sk hall rfl
    (by simpa [inputs_migrate] using hbound) hrun
  have m1' : sk.icc.motion_count = s.icc.motion_count + msgs.length := by
    simpa [inputs_migrate] using m1
  have m2' : sk.icc.pipe = s.icc.pipe := by simpa [inputs_migrate] using m2
  have hd := handle_migrate_data_accepted P d (inputs_channel_send_migrate_data P sk).2
    (by simpa [inputs_channel_send_migrate_data] using hvalid)
    (by simp only [inputs_channel_send_migrate_data]; omega)
  obtain ⟨p, hp⟩ := handle_messages_same_outcome P msgs (inputs_migrate s) s sk rfl rfl rfl rfl hrun
  obtain ⟨p1, p2, _⟩ := handle_messages_plain P msgs s p hall hsrc hlt hp
  refine ⟨by simpa [inputs_channel_send_migrate_data] using m2', hd.1, ?_, ?_, p, hp, ?_, p1⟩
  · rw [hd.2.2.1, ack_count_append_acks, ack_count_append_key_modifiers]
    simp only [inputs_channel_send_migrate_data, m1']
  · rw [hd.2.1]
    simp only [inputs_channel_send_migrate_data, m1']
  · rw [p2, ack_count_append_acks]

set_option maxRecDepth 100000 in
theorem migration_replays_suppressed_acks_witness :
    (∀ m ∈ List.replicate 130 (Msg.MOUSE_MOTION 1 0 0), is_motion_msg m = true) ∧
    example_inputs.channel.src_during_migrate = false ∧
    example_inputs.icc.motion_count = 0 ∧ 0 < 64 ∧
    (List.replicate 130 (Msg.MOUSE_MOTION 1 0 0)).length = 130 ∧ 0 + 130 < 65536 ∧
    example_protocol.migration_protocol_validate_header
      example_protocol.SPICE_MIGRATE_DATA_INPUTS_MAGIC
      example_protocol.SPICE_MIGRATE_DATA_INPUTS_VERSION
      example_protocol.SPICE_MIGRATE_DATA_INPUTS_MAGIC
      example_protocol.SPICE_MIGRATE_DATA_INPUTS_VERSION = true ∧
    ∃ sk, handle_messages example_protocol (inputs_migrate example_inputs)
        (List.replicate 130 (Msg.MOUSE_MOTION 1 0 0)) = some sk ∧
      ack_count (inputs_channel_handle_migrate_data example_protocol example_inputs
        (inputs_channel_send_migrate_data example_protocol sk).2).2.icc.pipe
        = ack_count example_inputs.icc.pipe + (0 + 130) / 64 ∧
      (inputs_channel_handle_migrate_data example_protocol example_inputs
        (inputs_channel_send_migrate_data example_protocol sk).2).2.icc.motion_count
        = (0 + 130) % 64 := by
  have hall : ∀ m ∈ List.replicate 130 (Msg.MOUSE_MOTION 1 0 0), is_motion_msg m = true := by
    intro m hm
    rw [List.eq_of_mem_replicate hm]
    rfl
  obtain ⟨sk, hsk⟩ := handle_messages_total example_protocol
    (List.replicate 130 (Msg.MOUSE_MOTION 1 0 0)) (inputs_migrate example_inputs)
    (fun h => absurd h (by decide))
  have hthm := migration_replays_suppressed_acks example_protocol example_inputs example_inputs
    sk (List.replicate 130 (Msg.MOUSE_MOTION 1 0 0)) 0 130 hall rfl rfl (by decide)
    (by simp) (by decide) (by decide) hsk
  exact ⟨hall, rfl, rfl, by decide, by simp, by decide, by decide, sk, hsk,
    hthm.2.2.1, hthm.2.2.2.1⟩

/-- C4: for a payload whose header is accepted and that carries
`motion_count = m`, `inputs_channel_handle_migrate_data` returns `TRUE`, adds
to the pipe first one `KEY_MODIFIERS` item (when the channel is connected and
not a migration source; no such item otherwise) and then exactly `m / 64`
`MOUSE_MOTION_ACK` items, and leaves `motion_count = m mod 64`.  The
`KEY_MODIFIERS` item carries the LED byte the keyboard back-end reports at
that moment (`leds` of the attached keyboard, as a `uint8_t`), and `0` when
no keyboard is attached. -/
theorem handle_migrate_data_restores_and_replays (P : Protocol) (s : Inputs) (d : MigrateData)
    (hvalid : P.migration_protocol_validate_header d.magic d.version
      P.SPICE_MIGRATE_DATA_INPUTS_MAGIC P.SPICE_MIGRATE_DATA_INPUTS_VERSION = true)
    (hm : d.motion_count < 65536) :
    (inputs_channel_handle_migrate_data P s d).1 = true ∧
    (inputs_channel_handle_migrate_data P s d).2.icc.motion_count = d.motion_count % 64 ∧
    (∀ k, s.channel.keyboard = some k →
      (inputs_channel_handle_migrate_data P s d).2.icc.pipe =
        s.icc.pipe ++
        (if s.channel.connected = true ∧ s.channel.src_during_migrate = false then
          [PipeItem.KEY_MODIFIERS (k.leds % 256)] else []) ++
        List.replicate (d.motion_count / 64) PipeItem.MOUSE_MOTION_ACK) ∧
    (s.channel.keyboard = none →
      (inputs_channel_handle_migrate_data P s d).2.icc.pipe =
        s.icc.pipe ++
        (if s.channel.connected = true ∧ s.channel.src_during_migrate = false then
          [PipeItem.KEY_MODIFIERS 0] else []) ++
        List.replicate (d.motion_count / 64) PipeItem.MOUSE_MOTION_ACK) := by
  have hacc := handle_migrate_data_accepted P s d hvalid hm
  refine ⟨hacc.1, hacc.2.1, fun k hk => ?_, fun hk => ?_⟩
  · have hl : kbd_get_leds s.channel.keyboard = k.leds % 256 := by rw [hk]; rfl
    rw [hacc.2.2.1, hl]
  · have hl : kbd_get_leds s.channel.keyboard = 0 := by rw [hk]; rfl
    rw [hacc.2.2.1, hl]

theorem handle_migrate_data_restores_and_replays_witness :
    example_protocol.migration_protocol_validate_header 0x53504e49 1
      example_protocol.SPICE_MIGRATE_DATA_INPUTS_MAGIC
      example_protocol.SPICE_MIGRATE_DATA_INPUTS_VERSION = true ∧
    (130 < 65536) ∧
    (example_inputs_leds 3).channel.keyboard = some (keyboard_attached 3) ∧
    (keyboard_attached 3).leds = 3 ∧
    (inputs_channel_handle_migrate_data example_protocol (example_inputs_leds 3)
      { magic := 0x53504e49, version := 1, motion_count := 130 }).2.icc.motion_count = 2 ∧
    (inputs_channel_handle_migrate_data example_protocol (example_inputs_leds 3)
      { magic := 0x53504e49, version := 1, motion_count := 130 }).2.icc.pipe
      = [PipeItem.INPUTS_INIT 3, PipeItem.KEY_MODIFIERS 3, PipeItem.MOUSE_MOTION_ACK,
         PipeItem.MOUSE_MOTION_ACK] := by
  have hthm := handle_migrate_data_restores_and_replays example_protocol
    (example_inputs_leds 3)
    { magic := 0x53504e49, version := 1, motion_count := 130 } (by decide) (by decide)
  refine ⟨by decide, by decide, rfl, rfl, ?_, ?_⟩
  · rw [hthm.2.1]; decide
  · rw [hthm.2.2.1 (keyboard_attached 3) rfl]; decide

/-- C5: `inputs_channel_handle_migrate_data` returns `FALSE` if and only if
the header check fails, and when it returns `FALSE` the state is the one it
was called in: `motion_count` is unchanged and nothing is added to the
pipe. -/
theorem handle_migrate_data_fails_iff_bad_header (P : Protocol) (s : Inputs) (d : MigrateData) :
    ((inputs_channel_handle_migrate_data P s d).1 = false ↔
      P.migration_protocol_validate_header d.magic d.version
        P.SPICE_MIGRATE_DATA_INPUTS_MAGIC P.SPICE_MIGRATE_DATA_INPUTS_VERSION = false) ∧
    ((inputs_channel_handle_migrate_data P s d).1 = false →
      (inputs_channel_handle_migrate_data P s d).2 = s) := by
  cases hv : P.migration_protocol_validate_header d.magic d.version
      P.SPICE_MIGRATE_DATA_INPUTS_MAGIC P.SPICE_MIGRATE_DATA_INPUTS_VERSION
  · rw [handle_migrate_data_rejected P s d hv]
    simp
  · simp [inputs_channel_handle_migrate_data, hv]

theorem handle_migrate_data_fails_iff_bad_header_witness :
    (inputs_channel_handle_migrate_data example_protocol example_inputs
      { magic := 0xdead, version := 1, motion_count := 130 }).1 = false ∧
    (inputs_channel_handle_migrate_data example_protocol example_inputs
      { magic := 0xdead, version := 1, motion_count := 130 }).2 = example_inputs :=
  ⟨by decide, (handle_migrate_data_fails_iff_bad_header example_protocol example_inputs
    { magic := 0xdead, version := 1, motion_count := 130 }).2 (by decide)⟩

/-! ## Keyboard tracker: claims C6 to C10 -/

/-- C6 (the code departs from the claim): a plain press `0x1E` on a fresh
tracker is recorded in `key_ext`, not in `key`, and the release `0x9E` clears
`key_ext`; the extended press `0xE0 0x48` is recorded in `key`, not in
`key_ext`.  The selection of `kbd_push_scan` is the reverse of the claimed
one. -/
theorem kbd_push_scan_selects_reversed_array :
    (feed_scancodes (keyboard_attached 0) [0x1e]).st.key ⟨0x1e, by decide⟩ = false ∧
    (feed_scancodes (keyboard_attached 0) [0x1e]).st.key_ext ⟨0x1e, by decide⟩ = true ∧
    (feed_scancodes (keyboard_attached 0) [0x1e, 0x9e]).st.key_ext ⟨0x1e, by decide⟩ = false ∧
    (feed_scancodes (keyboard_attached 0) [0xe0, 0x48]).st.key ⟨0x48, by decide⟩ = true ∧
    (feed_scancodes (keyboard_attached 0) [0xe0, 0x48]).st.key_ext ⟨0x48, by decide⟩ = false ∧
    (feed_scancodes (keyboard_attached 0) [0xe0, 0x48, 0xe0, 0xc8]).st.key ⟨0x48, by decide⟩
      = false := by
  decide

/-- C7: whatever the tracker state and the bytes fed before, after a byte `b`
has gone through `kbd_push_scan` on an attached keyboard, `push_ext` is true
if and only if `b` is `0xE0`. -/
theorem push_ext_iff_last_byte_is_e0 (k : SpiceKbdInstance) (bs : List Nat) (b : Nat)
    (hb : b < 256) :
    ∃ k1, (bs ++ [b]).foldl kbd_push_scan (some k) = some k1 ∧
      (k1.st.push_ext = true ↔ b = 0xe0) := by
  refine ⟨feed_scancodes k (bs ++ [b]), foldl_kbd_push_scan_some k _, ?_⟩
  rw [feed_scancodes_append]
  simp only [feed_scancodes, List.foldl_cons, List.foldl_nil]
  rw [kbd_push_scan_attached_push_ext, Nat.mod_eq_of_lt hb]
  simp

theorem push_ext_iff_last_byte_is_e0_witness :
    (0xe0 < 256) ∧
    ∃ k1, ([0x1e, 0xe0, 0x48] ++ [0xe0]).foldl kbd_push_scan (some (keyboard_attached 0))
        = some k1 ∧ (k1.st.push_ext = true ↔ 0xe0 = 0xe0) :=
  ⟨by decide, push_ext_iff_last_byte_is_e0 (keyboard_attached 0) [0x1e, 0xe0, 0x48] 0xe0
    (by decide)⟩

/-- C8 (the code departs from the claim): after the plain press `0x1E` the
disconnect pushes `0xE0 0x9E`, the release of an extended key, so the plain
key is never released; after the extended press `0xE0 0x48` it pushes the
bare `0xC8`, so the extended key is never released. -/
theorem release_keys_sends_wrong_form :
    (release_keys_attached (feed_scancodes (keyboard_attached 0) [0x1e])).pushed
      = [0x1e] ++ [0xe0, 0x9e] ∧
    (release_keys_attached (feed_scancodes (keyboard_attached 0) [0xe0, 0x48])).pushed
      = [0xe0, 0x48] ++ [0xc8] := by
  decide

/-- C9 (the code departs from the claim): with position 3 pressed in `key`
and in `key_ext` (the state the bytes `0x03 0xE0 0x03` lead to),
`inputs_release_keys` pushes the single byte `0x83`; the `0xE0 0x83` of the
`key_ext` entry is never pushed, because the `kbd_push_scan` of the first
loop has cleared that entry. -/
theorem release_keys_drops_ext_release :
    (feed_scancodes (keyboard_attached 0) [0x03, 0xe0, 0x03]).st.push_ext = false ∧
    (feed_scancodes (keyboard_attached 0) [0x03, 0xe0, 0x03]).st.key ⟨3, by decide⟩ = true ∧
    (feed_scancodes (keyboard_attached 0) [0x03, 0xe0, 0x03]).st.key_ext ⟨3, by decide⟩ = true ∧
    (release_keys_attached (feed_scancodes (keyboard_attached 0) [0x03, 0xe0, 0x03])).pushed
      = [0x03, 0xe0, 0x03] ++ [0x83] := by
  decide

/-- C10: with a keyboard attached, `KEY_UP` and `KEY_DOWN` of `code` run the
tracker over exactly the bytes of `code`, least significant first, that come
before its first zero byte, and the back-end receives these bytes in that
order; a zero code leaves the keyboard as it was. -/
theorem key_up_feeds_bytes_before_first_zero (s : Inputs) (k : SpiceKbdInstance) (code : Nat)
    (hk : s.channel.keyboard = some k) :
    (handle_key_up s code).channel.keyboard
      = some (feed_scancodes k ((code_bytes code).takeWhile (fun b => decide (b ≠ 0)))) ∧
    (handle_key_down s code).channel.keyboard
      = some (feed_scancodes k ((code_bytes code).takeWhile (fun b => decide (b ≠ 0)))) ∧
    (feed_scancodes k ((code_bytes code).takeWhile (fun b => decide (b ≠ 0)))).pushed
      = k.pushed ++ (code_bytes code).takeWhile (fun b => decide (b ≠ 0)) ∧
    (handle_key_up s 0).channel.keyboard = some k ∧
    (handle_key_down s 0).channel.keyboard = some k := by
  have hup : ∀ c, (handle_key_up s c).channel.keyboard
      = some (feed_scancodes k ((code_bytes c).takeWhile (fun b => decide (b ≠ 0)))) := by
    intro c
    simp only [handle_key_up, key_code_loop_eq, hk, foldl_kbd_push_scan_some]
  have hdown : ∀ c, (handle_key_down s c).channel.keyboard
      = some (feed_scancodes k ((code_bytes c).takeWhile (fun b => decide (b ≠ 0)))) := by
    intro c
    unfold handle_key_down
    by_cases hl : c = CAPS_LOCK_SCAN_CODE ∨ c = NUM_LOCK_SCAN_CODE ∨ c = SCROLL_LOCK_SCAN_CODE
    · simp only [hl, if_true, handle_key_up, activate_modifiers_watch, key_code_loop_eq, hk,
        foldl_kbd_push_scan_some]
    · simp only [hl, if_false, handle_key_up, key_code_loop_eq, hk, foldl_kbd_push_scan_some]
  have hzero : (code_bytes 0).takeWhile (fun b => decide (b ≠ 0)) = [] := by decide
  refine ⟨hup code, hdown code, ?_, ?_, ?_⟩
  · rw [feed_scancodes_pushed]
    congr 1
    have hall : ∀ b ∈ (code_bytes code).takeWhile (fun b => decide (b ≠ 0)), b % 256 = b :=
      fun b hb => Nat.mod_eq_of_lt (code_bytes_lt code b (List.takeWhile_subset _ hb))
    calc ((code_bytes code).takeWhile (fun b => decide (b ≠ 0))).map (fun b => b % 256)
        = ((code_bytes code).takeWhile (fun b => decide (b ≠ 0))).map id :=
          List.map_congr_left hall
      _ = _ := List.map_id _
  · rw [hup 0, hzero]; rfl
  · rw [hdown 0, hzero]; rfl

theorem key_up_feeds_bytes_before_first_zero_witness :
    example_inputs.channel.keyboard = some (keyboard_attached 0) ∧
    (handle_key_up example_inputs 0x1de0).channel.keyboard
      = some (feed_scancodes (keyboard_attached 0)
          ((code_bytes 0x1de0).takeWhile (fun b => decide (b ≠ 0)))) ∧
    (handle_key_down example_inputs 0x1de0).channel.keyboard
      = some (feed_scancodes (keyboard_attached 0)
          ((code_bytes 0x1de0).takeWhile (fun b => decide (b ≠ 0)))) ∧
    (feed_scancodes (keyboard_attached 0)
        ((code_bytes 0x1de0).takeWhile (fun b => decide (b ≠ 0)))).pushed
      = (keyboard_attached 0).pushed ++ (code_bytes 0x1de0).takeWhile (fun b => decide (b ≠ 0)) ∧
    (handle_key_up example_inputs 0).channel.keyboard = some (keyboard_attached 0) ∧
    (handle_key_down example_inputs 0).channel.keyboard = some (keyboard_attached 0) :=
  ⟨rfl, key_up_feeds_bytes_before_first_zero example_inputs (keyboard_attached 0) 0x1de0 rfl⟩

/-! ## Keyboard messages: claims C11 to C13 -/

/-- C11: for every state and code, `KEY_DOWN` and `KEY_UP` are both handled,
and leave the same channel (tracker state and bytes pushed to the back-end
included) and the same client record; `KEY_UP` leaves the server state as it
was, and `KEY_DOWN` differs from it only by one start of the modifier timer,
made if and only if the code is `0x46`, `0x45` or `0x3A`. -/
theorem key_down_is_key_up_plus_timer (P : Protocol) (s : Inputs) (code : Nat) :
    ∃ sd su, inputs_channel_handle_parsed P s (Msg.KEY_DOWN code) = some sd ∧
      inputs_channel_handle_parsed P s (Msg.KEY_UP code) = some su ∧
      sd.channel = su.channel ∧ sd.icc = su.icc ∧
      su.reds = s.reds ∧
      sd.reds = { s.reds with timer_starts := s.reds.timer_starts +
        (if code = 0x46 ∨ code = 0x45 ∨ code = 0x3a then 1 else 0) } := by
  refine ⟨handle_key_down s code, handle_key_up s code, rfl, rfl, ?_⟩
  simp only [handle_key_down, CAPS_LOCK_SCAN_CODE, NUM_LOCK_SCAN_CODE, SCROLL_LOCK_SCAN_CODE]
  by_cases h : code = 0x3a ∨ code = 0x45 ∨ code = 0x46
  · have h2 : code = 0x46 ∨ code = 0x45 ∨ code = 0x3a := by omega
    simp [h, h2, handle_key_up, activate_modifiers_watch]
  · have h2 : ¬ (code = 0x46 ∨ code = 0x45 ∨ code = 0x3a) := by omega
    simp [h, h2, handle_key_up]

/-- C12, as the claim states it, fails: on a channel without keyboard a
`KEY_DOWN` of caps-lock (`0x3A`) starts the modifier timer. -/
theorem key_down_arms_timer_without_keyboard :
    example_channel_bare.keyboard = none ∧
    ∃ s1, inputs_channel_handle_parsed example_protocol
        (inputs_connect example_channel_bare example_reds) (Msg.KEY_DOWN 0x3a) = some s1 ∧
      s1.reds.timer_starts
        = (inputs_connect example_channel_bare example_reds).reds.timer_starts + 1 :=
  ⟨rfl, _, rfl, rfl⟩

/-- C12, amended: on a channel without keyboard, `KEY_UP`, `KEY_SCANCODE` and
`KEY_MODIFIERS` are handled and leave the whole state as it was (no back-end
call, no pipe item, no timer start, channel and client unchanged); `KEY_DOWN`
is handled too and changes nothing but the modifier timer, which it starts
when the code is `0x46`, `0x45` or `0x3A`. -/
theorem keyboard_messages_dropped_without_keyboard (P : Protocol) (s : Inputs)
    (hk : s.channel.keyboard = none) :
    (∀ code, inputs_channel_handle_parsed P s (Msg.KEY_UP code) = some s) ∧
    (∀ bytes, inputs_channel_handle_parsed P s (Msg.KEY_SCANCODE bytes) = some s) ∧
    (∀ m, inputs_channel_handle_parsed P s (Msg.KEY_MODIFIERS m) = some s) ∧
    (∀ code, inputs_channel_handle_parsed P s (Msg.KEY_DOWN code) =
      some (if code = 0x46 ∨ code = 0x45 ∨ code = 0x3a then activate_modifiers_watch s else s)) := by
  have hloop : ∀ code, key_code_loop code 4 0 none = none := by
    intro code
    rw [key_code_loop_eq, foldl_kbd_push_scan_none]
  have hchan : { s.channel with keyboard := none } = s.channel := by
    rw [← hk]
  have hup : ∀ t : Inputs, t.channel = s.channel → ∀ code, handle_key_up t code = t := by
    intro t ht code
    simp only [handle_key_up, ht, hk, hloop]
    rw [hchan, ← ht]
  refine ⟨fun code => ?_, fun bytes => ?_, fun m => ?_, fun code => ?_⟩
  · simp only [inputs_channel_handle_parsed, hup s rfl]
  · simp only [inputs_channel_handle_parsed, handle_key_scancode, hk, foldl_kbd_push_scan_none]
    rw [hchan]
  · simp only [inputs_channel_handle_parsed, handle_key_modifiers, hk]
  · simp only [inputs_channel_handle_parsed, handle_key_down, CAPS_LOCK_SCAN_CODE,
      NUM_LOCK_SCAN_CODE, SCROLL_LOCK_SCAN_CODE]
    by_cases h : code = 0x3a ∨ code = 0x45 ∨ code = 0x46
    · have h2 : code = 0x46 ∨ code = 0x45 ∨ code = 0x3a := by omega
      simp only [h, h2, if_true]
      rw [hup (activate_modifiers_watch s) rfl]
    · have h2 : ¬ (code = 0x46 ∨ code = 0x45 ∨ code = 0x3a) := by omega
      simp only [h, h2, if_false]
      rw [hup s rfl]

theorem keyboard_messages_dropped_without_keyboard_witness :
    (inputs_connect example_channel_bare example_reds).channel.keyboard = none ∧
    inputs_channel_handle_parsed example_protocol
      (inputs_connect example_channel_bare example_reds) (Msg.KEY_SCANCODE [0x1e, 0x9e])
      = some (inputs_connect example_channel_bare example_reds) ∧
    inputs_channel_handle_parsed example_protocol
      (inputs_connect example_channel_bare example_reds) (Msg.KEY_MODIFIERS 4)
      = some (inputs_connect example_channel_bare example_reds) :=
  ⟨rfl,
   (keyboard_messages_dropped_without_keyboard example_protocol
     (inputs_connect example_channel_bare example_reds) rfl).2.1 [0x1e, 0x9e],
   (keyboard_messages_dropped_without_keyboard example_protocol
     (inputs_connect example_channel_bare example_reds) rfl).2.2.1 4⟩

/-- C13: with a keyboard attached, whatever its tracker state, `KEY_SCANCODE`
hands the back-end exactly the payload bytes, one push each, in payload
order. -/
theorem key_scancode_forwards_payload (P : Protocol) (s : Inputs) (k : SpiceKbdInstance)
    (bytes : List Nat) (hk : s.channel.keyboard = some k) (hb : ∀ b ∈ bytes, b < 256) :
    ∃ s1 k1, inputs_channel_handle_parsed P s (Msg.KEY_SCANCODE bytes) = some s1 ∧
      s1.channel.keyboard = some k1 ∧ k1.pushed = k.pushed ++ bytes := by
  refine ⟨handle_key_scancode s bytes, feed_scancodes k bytes, rfl, ?_, ?_⟩
  · simp only [handle_key_scancode, hk, foldl_kbd_push_scan_some]
  · rw [feed_scancodes_pushed]
    congr 1
    calc bytes.map (fun b => b % 256) = bytes.map id :=
          List.map_congr_left (fun b hmem => Nat.mod_eq_of_lt (hb b hmem))
      _ = bytes := List.map_id _

theorem key_scancode_forwards_payload_witness :
    example_inputs.channel.keyboard = some (keyboard_attached 0) ∧
    (∀ b ∈ [0xe0, 0x00, 0x48, 0xe0, 0xe0, 0xc8], b < 256) ∧
    ∃ s1 k1, inputs_channel_handle_parsed example_protocol example_inputs
        (Msg.KEY_SCANCODE [0xe0, 0x00, 0x48, 0xe0, 0xe0, 0xc8]) = some s1 ∧
      s1.channel.keyboard = some k1 ∧
      k1.pushed = (keyboard_attached 0).pushed ++ [0xe0, 0x00, 0x48, 0xe0, 0xe0, 0xc8] :=
  ⟨rfl, by decide, key_scancode_forwards_payload example_protocol example_inputs
    (keyboard_attached 0) [0xe0, 0x00, 0x48, 0xe0, 0xe0, 0xc8] rfl (by decide)⟩

/-! ## Pointer routing: claims C14 to C18 -/

/-- C14: `MOUSE_POSITION {x, y, buttons, display_id}`, the counter block
apart.  Outside `CLIENT` mode the channel and the server are left as they
were (no back-end call, cached agent state unchanged).  In `CLIENT` mode with
`agent_mouse` and `vdagent` the cached agent state becomes
`{x, y, agent_mask(buttons), display_id}`, that state is posted to the agent
once, and nothing else changes, a tablet that may be attached included.  In
`CLIENT` mode without the agent and with a tablet, the tablet gets the one
call `position(x, y, local(buttons))` and nothing else changes. -/
theorem mouse_position_routing (P : Protocol) (s : Inputs) (x y b d : Nat) :
    (s.reds.mouse_mode ≠ MouseMode.CLIENT →
      inputs_channel_handle_parsed P s (Msg.MOUSE_POSITION x y b d) =
        some { channel := s.channel, icc := (bump_motion_count s).icc, reds := s.reds }) ∧
    (s.reds.mouse_mode = MouseMode.CLIENT →
      s.reds.agent_mouse = true → s.reds.has_vdagent = true →
      inputs_channel_handle_parsed P s (Msg.MOUSE_POSITION x y b d) =
        some { channel := { s.channel with mouse_state :=
                 { x := x, y := y, buttons := RED_MOUSE_BUTTON_STATE_TO_AGENT P b,
                   display_id := d } },
               icc := (bump_motion_count s).icc,
               reds := { s.reds with agent_events := s.reds.agent_events ++
                 [{ x := x, y := y, buttons := RED_MOUSE_BUTTON_STATE_TO_AGENT P b,
                    display_id := d }] } }) ∧
    (∀ t, s.reds.mouse_mode = MouseMode.CLIENT →
      (s.reds.agent_mouse = false ∨ s.reds.has_vdagent = false) →
      s.channel.tablet = some t →
      inputs_channel_handle_parsed P s (Msg.MOUSE_POSITION x y b d) =
        some { channel := { s.channel with tablet := some { calls := t.calls ++
                 [TabletCall.position x y (RED_MOUSE_STATE_TO_LOCAL b)] } },
               icc := (bump_motion_count s).icc,
               reds := s.reds }) := by
  have hc := bump_motion_count_channel s
  have hr := bump_motion_count_reds s
  refine ⟨fun hm => ?_, fun hm ha hv => ?_, fun t hm hav ht => ?_⟩
  · simp only [inputs_channel_handle_parsed, handle_mouse_position,
      handle_mouse_position_checked, hr, hm, ne_eq, not_false_eq_true, if_true]
    rw [← hc, ← hr]
  · simp only [inputs_channel_handle_parsed, handle_mouse_position,
      handle_mouse_position_checked, hc, hr, hm, ha, hv]
    simp
  · simp only [inputs_channel_handle_parsed, handle_mouse_position,
      handle_mouse_position_checked, hc, hr, hm, ht]
    rcases hav with ha | hv
    · simp [ha]
    · simp [hv]

theorem mouse_position_routing_witness :
    (inputs_connect example_channel_bare example_reds_agent).reds.mouse_mode
      = MouseMode.CLIENT ∧
    (inputs_connect example_channel_bare example_reds_agent).reds.agent_mouse = true ∧
    (inputs_connect example_channel_bare example_reds_agent).reds.has_vdagent = true ∧
    (inputs_channel_handle_parsed example_protocol
        (inputs_connect example_channel_bare example_reds_agent)
        (Msg.MOUSE_POSITION 100 200 SPICE_MOUSE_BUTTON_MASK_LEFT 3)).map
        (fun s1 => (s1.channel.mouse_state, s1.reds.agent_events, s1.channel.tablet))
      = some ({ x := 100, y := 200, buttons := 2, display_id := 3 },
              [{ x := 100, y := 200, buttons := 2, display_id := 3 }], none) := by
  refine ⟨rfl, rfl, rfl, ?_⟩
  rw [(mouse_position_routing example_protocol
    (inputs_connect example_channel_bare example_reds_agent) 100 200
    SPICE_MOUSE_BUTTON_MASK_LEFT 3).2.1 rfl rfl rfl]
  decide

/-- C15: the `spice_assert` of `MOUSE_POSITION` fails if and only if the mode
is `CLIENT`, the agent is not available and no tablet is attached; the
tablet is never read through a null handle; and under the caller's guarantee
(in `CLIENT` mode the agent or a tablet is there) the case runs to its end
and the handler returns. -/
theorem mouse_position_assertion (P : Protocol) (s : Inputs) (x y b d : Nat) :
    (handle_mouse_position_checked P s x y b d = Except.error PositionFault.assertion_failed ↔
      s.reds.mouse_mode = MouseMode.CLIENT ∧
      ¬ (s.reds.agent_mouse = true ∧ s.reds.has_vdagent = true) ∧
      s.channel.tablet = none) ∧
    handle_mouse_position_checked P s x y b d ≠ Except.error PositionFault.null_tablet ∧
    (position_routable s →
      ∃ s1, handle_mouse_position_checked P s x y b d = Except.ok s1 ∧
        inputs_channel_handle_parsed P s (Msg.MOUSE_POSITION x y b d) = some s1) := by
  have hc := bump_motion_count_channel s
  have hr := bump_motion_count_reds s
  simp only [inputs_channel_handle_parsed, handle_mouse_position,
    handle_mouse_position_checked, position_routable, hc, hr]
  cases hm : s.reds.mouse_mode <;> cases ha : s.reds.agent_mouse <;>
    cases hv : s.reds.has_vdagent <;> cases ht : s.channel.tablet <;> simp

theorem mouse_position_assertion_witness :
    position_routable (inputs_connect example_channel_tablet example_reds_client) ∧
    ∃ s1, handle_mouse_position_checked example_protocol
        (inputs_connect example_channel_tablet example_reds_client) 10 20 0 0 = Except.ok s1 ∧
      inputs_channel_handle_parsed example_protocol
        (inputs_connect example_channel_tablet example_reds_client)
        (Msg.MOUSE_POSITION 10 20 0 0) = some s1 :=
  ⟨fun _ => Or.inr rfl,
   (mouse_position_assertion example_protocol
     (inputs_connect example_channel_tablet example_reds_client) 10 20 0 0).2.2
     (fun _ => Or.inr rfl)⟩

/-- C16: `MOUSE_PRESS {button, buttons}` with `dz = press_dz button`.  In
`CLIENT` mode with the agent, the cached agent state keeps `x`, `y` and
`display_id`, its buttons become
`agent_mask(buttons) | (dz = -1 ? UBUTTON : 0) | (dz = +1 ? DBUTTON : 0)`, and
it is posted once.  In `CLIENT` mode without agent, a tablet gets the one call
`wheel(dz, local(buttons))`, and without tablet nothing changes.  In `SERVER`
mode a mouse gets the one call `motion(0, 0, dz, local(buttons))`, and
without mouse nothing changes. -/
theorem mouse_press_routing (P : Protocol) (s : Inputs) (button b : Nat) :
    (s.reds.mouse_mode = MouseMode.CLIENT →
      s.reds.agent_mouse = true → s.reds.has_vdagent = true →
      inputs_channel_handle_parsed P s (Msg.MOUSE_PRESS button b) =
        some { s with
          channel := { s.channel with mouse_state :=
            { x := s.channel.mouse_state.x, y := s.channel.mouse_state.y,
              buttons := RED_MOUSE_BUTTON_STATE_TO_AGENT P b |||
                (if press_dz P button = -1 then P.VD_AGENT_UBUTTON_MASK else 0) |||
                (if press_dz P button = 1 then P.VD_AGENT_DBUTTON_MASK else 0),
              display_id := s.channel.mouse_state.display_id } }
          reds := { s.reds with agent_events := s.reds.agent_events ++
            [{ x := s.channel.mouse_state.x, y := s.channel.mouse_state.y,
               buttons := RED_MOUSE_BUTTON_STATE_TO_AGENT P b |||
                 (if press_dz P button = -1 then P.VD_AGENT_UBUTTON_MASK else 0) |||
                 (if press_dz P button = 1 then P.VD_AGENT_DBUTTON_MASK else 0),
               display_id := s.channel.mouse_state.display_id }] } }) ∧
    (∀ t, s.reds.mouse_mode = MouseMode.CLIENT →
      (s.reds.agent_mouse = false ∨ s.reds.has_vdagent = false) →
      s.channel.tablet = some t →
      inputs_channel_handle_parsed P s (Msg.MOUSE_PRESS button b) =
        some { s with channel := { s.channel with tablet := some { calls := t.calls ++
          [TabletCall.wheel (press_dz P button) (RED_MOUSE_STATE_TO_LOCAL b)] } } }) ∧
    (s.reds.mouse_mode = MouseMode.CLIENT →
      (s.reds.agent_mouse = false ∨ s.reds.has_vdagent = false) →
      s.channel.tablet = none →
      inputs_channel_handle_parsed P s (Msg.MOUSE_PRESS button b) = some s) ∧
    (∀ m, s.reds.mouse_mode = MouseMode.SERVER → s.channel.mouse = some m →
      inputs_channel_handle_parsed P s (Msg.MOUSE_PRESS button b) =
        some { s with channel := { s.channel with mouse := some { calls := m.calls ++
          [MouseCall.motion 0 0 (press_dz P button) (RED_MOUSE_STATE_TO_LOCAL b)] } } }) ∧
    (s.reds.mouse_mode = MouseMode.SERVER → s.channel.mouse = none →
      inputs_channel_handle_parsed P s (Msg.MOUSE_PRESS button b) = some s) := by
  refine ⟨fun hm ha hv => ?_, fun t hm hav ht => ?_, fun hm hav ht => ?_, fun m hm hmo => ?_,
    fun hm hmo => ?_⟩
  · simp [inputs_channel_handle_parsed, handle_mouse_press, press_dz, hm, ha, hv]
  · rcases hav with ha | hv
    · simp [inputs_channel_handle_parsed, handle_mouse_press, press_dz, hm, ha, ht]
    · simp [inputs_channel_handle_parsed, handle_mouse_press, press_dz, hm, hv, ht]
  · rcases hav with ha | hv
    · simp [inputs_channel_handle_parsed, handle_mouse_press, hm, ha, ht]
    · simp [inputs_channel_handle_parsed, handle_mouse_press, hm, hv, ht]
  · simp [inputs_channel_handle_parsed, handle_mouse_press, press_dz, hm, hmo]
  · simp [inputs_channel_handle_parsed, handle_mouse_press, hm, hmo]

theorem mouse_press_routing_witness :
    (inputs_connect example_channel_bare example_reds_agent).reds.mouse_mode
      = MouseMode.CLIENT ∧
    (inputs_connect example_channel_bare example_reds_agent).reds.agent_mouse = true ∧
    (inputs_connect example_channel_bare example_reds_agent).reds.has_vdagent = true ∧
    (inputs_channel_handle_parsed example_protocol
        (inputs_connect example_channel_bare example_reds_agent)
        (Msg.MOUSE_PRESS 4 SPICE_MOUSE_BUTTON_MASK_RIGHT)).map
        (fun s1 => (s1.channel.mouse_state, s1.reds.agent_events))
      = some ({ x := 7, y := 9, buttons := 8 ||| 16, display_id := 1 },
              [{ x := 7, y := 9, buttons := 8 ||| 16, display_id := 1 }]) := by
  refine ⟨rfl, rfl, rfl, ?_⟩
  rw [(mouse_press_routing example_protocol
    (inputs_connect example_channel_bare example_reds_agent) 4
    SPICE_MOUSE_BUTTON_MASK_RIGHT).1 rfl rfl rfl]
  decide

/-- C17: `MOUSE_RELEASE {buttons}`.  In `CLIENT` mode with the agent, the
cached agent state keeps `x`, `y` and `display_id`, its buttons become
exactly `agent_mask(buttons)` whatever they were, and it is posted once.  In
`CLIENT` mode without agent, a tablet gets the one call
`buttons(local(buttons))`.  In `SERVER` mode a mouse gets the one call
`buttons(local(buttons))`.  In the two remaining configurations (`CLIENT`
with neither agent nor tablet, `SERVER` without mouse) nothing changes. -/
theorem mouse_release_routing (P : Protocol) (s : Inputs) (button b : Nat) :
    (s.reds.mouse_mode = MouseMode.CLIENT →
      s.reds.agent_mouse = true → s.reds.has_vdagent = true →
      inputs_channel_handle_parsed P s (Msg.MOUSE_RELEASE button b) =
        some { s with
          channel := { s.channel with mouse_state :=
            { x := s.channel.mouse_state.x, y := s.channel.mouse_state.y,
              buttons := RED_MOUSE_BUTTON_STATE_TO_AGENT P b,
              display_id := s.channel.mouse_state.display_id } }
          reds := { s.reds with agent_events := s.reds.agent_events ++
            [{ x := s.channel.mouse_state.x, y := s.channel.mouse_state.y,
               buttons := RED_MOUSE_BUTTON_STATE_TO_AGENT P b,
               display_id := s.channel.mouse_state.display_id }] } }) ∧
    (∀ t, s.reds.mouse_mode = MouseMode.CLIENT →
      (s.reds.agent_mouse = false ∨ s.reds.has_vdagent = false) →
      s.channel.tablet = some t →
      inputs_channel_handle_parsed P s (Msg.MOUSE_RELEASE button b) =
        some { s with channel := { s.channel with tablet := some { calls := t.calls ++
          [TabletCall.buttons (RED_MOUSE_STATE_TO_LOCAL b)] } } }) ∧
    (∀ m, s.reds.mouse_mode = MouseMode.SERVER → s.channel.mouse = some m →
      inputs_channel_handle_parsed P s (Msg.MOUSE_RELEASE button b) =
        some { s with channel := { s.channel with mouse := some { calls := m.calls ++
          [MouseCall.buttons (RED_MOUSE_STATE_TO_LOCAL b)] } } }) ∧
    (s.reds.mouse_mode = MouseMode.CLIENT →
      (s.reds.agent_mouse = false ∨ s.reds.has_vdagent = false) →
      s.channel.tablet = none →
      inputs_channel_handle_parsed P s (Msg.MOUSE_RELEASE button b) = some s) ∧
    (s.reds.mouse_mode = MouseMode.SERVER → s.channel.mouse = none →
      inputs_channel_handle_parsed P s (Msg.MOUSE_RELEASE button b) = some s) := by
  refine ⟨fun hm ha hv => ?_, fun t hm hav ht => ?_, fun m hm hmo => ?_, fun hm hav ht => ?_,
    fun hm hmo => ?_⟩
  · simp [inputs_channel_handle_parsed, handle_mouse_release, hm, ha, hv]
  · rcases hav with ha | hv
    · simp [inputs_channel_handle_parsed, handle_mouse_release, hm, ha, ht]
    · simp [inputs_channel_handle_parsed, handle_mouse_release, hm, hv, ht]
  · simp [inputs_channel_handle_parsed, handle_mouse_release, hm, hmo]
  · rcases hav with ha | hv
    · simp [inputs_channel_handle_parsed, handle_mouse_release, hm, ha, ht]
    · simp [inputs_channel_handle_parsed, handle_mouse_release, hm, hv, ht]
  · simp [inputs_channel_handle_parsed, handle_mouse_release, hm, hmo]

theorem mouse_release_routing_witness :
    (inputs_connect example_channel_bare example_reds_agent).reds.mouse_mode
      = MouseMode.CLIENT ∧
    (inputs_connect example_channel_bare example_reds_agent).reds.agent_mouse = true ∧
    (inputs_connect example_channel_bare example_reds_agent).reds.has_vdagent = true ∧
    (inputs_connect example_channel_bare example_reds_agent).channel.mouse_state.buttons
      = 16 ∧
    (inputs_channel_handle_parsed example_protocol
        (inputs_connect example_channel_bare example_reds_agent)
        (Msg.MOUSE_RELEASE 4 SPICE_MOUSE_BUTTON_MASK_LEFT)).map
        (fun s1 => (s1.channel.mouse_state, s1.reds.agent_events))
      = some ({ x := 7, y := 9, buttons := 2, display_id := 1 },
              [{ x := 7, y := 9, buttons := 2, display_id := 1 }]) := by
  refine ⟨rfl, rfl, rfl, rfl, ?_⟩
  rw [(mouse_release_routing example_protocol
    (inputs_connect example_channel_bare example_reds_agent) 4
    SPICE_MOUSE_BUTTON_MASK_LEFT).1 rfl rfl rfl]
  decide

/-- C18: a handled pointer message (`MOUSE_MOTION`, `MOUSE_POSITION`,
`MOUSE_PRESS`, `MOUSE_RELEASE`) makes at most one call in total on the agent,
the tablet and the relative mouse, whatever the mouse mode, the agent flags
and the attached devices. -/
theorem pointer_message_calls_at_most_one_backend (P : Protocol) (s s1 : Inputs) (m : Msg)
    (hm : is_pointer_msg m = true)
    (h : inputs_channel_handle_parsed P s m = some s1) :
    backend_calls s ≤ backend_calls s1 ∧ backend_calls s1 ≤ backend_calls s + 1 := by
  have hc := bump_motion_count_channel s
  have hr := bump_motion_count_reds s
  cases m with
  | MOUSE_MOTION dx dy b =>
    simp only [inputs_channel_handle_parsed, Option.some.injEq] at h
    subst h
    simp only [handle_mouse_motion, hc, hr]
    cases hmo : s.channel.mouse <;> cases hmode : s.reds.mouse_mode <;>
      cases ht : s.channel.tablet <;> simp [backend_calls, hc, hr, hmo, ht] <;> omega
  | MOUSE_POSITION x y b d =>
    simp only [inputs_channel_handle_parsed, handle_mouse_position,
      handle_mouse_position_checked, hc, hr] at h
    cases hmode : s.reds.mouse_mode <;> cases ha : s.reds.agent_mouse <;>
      cases hv : s.reds.has_vdagent <;> cases ht : s.channel.tablet <;>
      cases hmo : s.channel.mouse <;>
      simp [hmode, ha, hv, ht] at h <;> subst h <;>
      simp [backend_calls, hc, hr, hmo, ht] <;> omega
  | MOUSE_PRESS button b =>
    simp only [inputs_channel_handle_parsed, Option.some.injEq] at h
    subst h
    simp only [handle_mouse_press]
    cases hmode : s.reds.mouse_mode <;> cases ha : s.reds.agent_mouse <;>
      cases hv : s.reds.has_vdagent <;> cases ht : s.channel.tablet <;>
      cases hmo : s.channel.mouse <;>
      simp [backend_calls, hmo, ht] <;> omega
  | MOUSE_RELEASE button b =>
    simp only [inputs_channel_handle_parsed, Option.some.injEq] at h
    subst h
    simp only [handle_mouse_release]
    cases hmode : s.reds.mouse_mode <;> cases ha : s.reds.agent_mouse <;>
      cases hv : s.reds.has_vdagent <;> cases ht : s.channel.tablet <;>
      cases hmo : s.channel.mouse <;>
      simp [backend_calls, hmo, ht] <;> omega
  | KEY_DOWN code => exact absurd hm (by simp [is_pointer_msg])
  | KEY_UP code => exact absurd hm (by simp [is_pointer_msg])
  | KEY_SCANCODE bytes => exact absurd hm (by simp [is_pointer_msg])
  | KEY_MODIFIERS mods => exact absurd hm (by simp [is_pointer_msg])
  | DISCONNECTING => exact absurd hm (by simp [is_pointer_msg])

theorem pointer_message_calls_at_most_one_backend_witness :
    is_pointer_msg (Msg.MOUSE_MOTION 1 1 0) = true ∧
    ∃ s1, inputs_channel_handle_parsed example_protocol example_inputs
        (Msg.MOUSE_MOTION 1 1 0) = some s1 ∧
      backend_calls example_inputs ≤ backend_calls s1 ∧
      backend_calls s1 ≤ backend_calls example_inputs + 1 :=
  ⟨rfl, _, rfl, pointer_message_calls_at_most_one_backend example_protocol example_inputs _
    (Msg.MOUSE_MOTION 1 1 0) rfl rfl⟩

/-! ## Button masks: claims C19 and C20 -/

/-- The three button bits of a state only depend on its low three bits. -/
theorem button_bits_mod8 (s : Nat) :
    s &&& 1 = (s % 8) &&& 1 ∧ s &&& 2 = (s % 8) &&& 2 ∧ s &&& 4 = (s % 8) &&& 4 ∧
    s &&& 7 = s % 8 := by
  have h7 : s &&& 7 = s % 8 := Nat.and_pow_two_sub_one_eq_mod s 3
  have h1 : (7 : Nat) &&& 1 = 1 := by decide
  have h2 : (7 : Nat) &&& 2 = 2 := by decide
  have h4 : (7 : Nat) &&& 4 = 4 := by decide
  refine ⟨?_, ?_, ?_, h7⟩
  · rw [← h7, Nat.and_assoc, h1]
  · rw [← h7, Nat.and_assoc, h2]
  · rw [← h7, Nat.and_assoc, h4]

theorem local_mask_mod8 (s : Nat) :
    RED_MOUSE_STATE_TO_LOCAL s = RED_MOUSE_STATE_TO_LOCAL (s % 8) := by
  have h := button_bits_mod8 s
  simp only [RED_MOUSE_STATE_TO_LOCAL, SPICE_MOUSE_BUTTON_MASK_LEFT,
    SPICE_MOUSE_BUTTON_MASK_MIDDLE, SPICE_MOUSE_BUTTON_MASK_RIGHT]
  rw [h.1, h.2.1, h.2.2.1]

theorem agent_mask_mod8 (P : Protocol) (s : Nat) :
    RED_MOUSE_BUTTON_STATE_TO_AGENT P s = RED_MOUSE_BUTTON_STATE_TO_AGENT P (s % 8) := by
  have h := button_bits_mod8 s
  simp only [RED_MOUSE_BUTTON_STATE_TO_AGENT, SPICE_MOUSE_BUTTON_MASK_LEFT,
    SPICE_MOUSE_BUTTON_MASK_MIDDLE, SPICE_MOUSE_BUTTON_MASK_RIGHT, h.1, h.2.1, h.2.2.1]

theorem ite_mask_testBit (c : Prop) [Decidable c] (m i : Nat) :
    (if c then m else 0).testBit i = (decide c && m.testBit i) := by
  by_cases h : c <;> simp [h]

/-- Bit by bit, the agent mask is the union of the agent masks of the buttons
that are down. -/
theorem agent_mask_testBit (P : Protocol) (s i : Nat) :
    (RED_MOUSE_BUTTON_STATE_TO_AGENT P s).testBit i =
      ((decide (s &&& 1 ≠ 0) && P.VD_AGENT_LBUTTON_MASK.testBit i) ||
       (decide (s &&& 2 ≠ 0) && P.VD_AGENT_MBUTTON_MASK.testBit i) ||
       (decide (s &&& 4 ≠ 0) && P.VD_AGENT_RBUTTON_MASK.testBit i)) := by
  simp only [RED_MOUSE_BUTTON_STATE_TO_AGENT, SPICE_MOUSE_BUTTON_MASK_LEFT,
    SPICE_MOUSE_BUTTON_MASK_MIDDLE, SPICE_MOUSE_BUTTON_MASK_RIGHT, Nat.testBit_or,
    ite_mask_testBit]

theorem mask_subset_iff (a b : Nat) :
    mask_subset a b ↔ ∀ i, a.testBit i = true → b.testBit i = true := by
  constructor
  · intro h i hi
    have : (a &&& b).testBit i = true := by rw [h]; exact hi
    rw [Nat.testBit_and] at this
    simp only [Bool.and_eq_true] at this
    exact this.2
  · intro h
    apply Nat.eq_of_testBit_eq
    intro i
    rw [Nat.testBit_and]
    cases ha : a.testBit i
    · simp
    · simp [h i ha]

theorem disjoint_testBit (a b : Nat) (h : a &&& b = 0) (i : Nat) :
    a.testBit i = true → b.testBit i = false := by
  intro ha
  have : (a &&& b).testBit i = false := by rw [h]; exact Nat.zero_testBit i
  rw [Nat.testBit_and, ha] at this
  simpa using this

/-- Inclusion of the low three bits passes to each button bit. -/
theorem button_bits_of_subset (s t : Nat) (h : mask_subset (s &&& 7) (t &&& 7)) :
    (s &&& 1 ≠ 0 → t &&& 1 ≠ 0) ∧ (s &&& 2 ≠ 0 → t &&& 2 ≠ 0) ∧
    (s &&& 4 ≠ 0 → t &&& 4 ≠ 0) := by
  have hs := button_bits_mod8 s
  have ht := button_bits_mod8 t
  unfold mask_subset at h
  rw [hs.1, hs.2.1, hs.2.2.1, ht.1, ht.2.1, ht.2.2.1]
  rw [hs.2.2.2, ht.2.2.2] at h
  have ha : s % 8 < 8 := Nat.mod_lt _ (by decide)
  have hb : t % 8 < 8 := Nat.mod_lt _ (by decide)
  clear hs ht
  generalize s % 8 = a at h ha
  generalize t % 8 = b at h hb
  revert h
  interval_cases a <;> interval_cases b <;> decide

/-- C19: `local(s) = (s & LEFT) | ((s & MIDDLE) << 1) | ((s & RIGHT) >> 1)`
with `LEFT = 1`, `MIDDLE = 2`, `RIGHT = 4` keeps the left bit (bit 0), puts
the middle bit of `s` (bit 1) at bit 2 and the right bit of `s` (bit 2) at
bit 1, has no other bit (`local(s) < 8`), and `local(local(s)) = s & 7`. -/
theorem local_mask_is_bit_permutation (s : Nat) :
    RED_MOUSE_STATE_TO_LOCAL s = (s &&& 0x01) ||| ((s &&& 0x02) <<< 1) ||| ((s &&& 0x04) >>> 1) ∧
    RED_MOUSE_STATE_TO_LOCAL s < 8 ∧
    (RED_MOUSE_STATE_TO_LOCAL s).testBit 0 = s.testBit 0 ∧
    (RED_MOUSE_STATE_TO_LOCAL s).testBit 1 = s.testBit 2 ∧
    (RED_MOUSE_STATE_TO_LOCAL s).testBit 2 = s.testBit 1 ∧
    (∀ i, 3 ≤ i → (RED_MOUSE_STATE_TO_LOCAL s).testBit i = false) ∧
    RED_MOUSE_STATE_TO_LOCAL (RED_MOUSE_STATE_TO_LOCAL s) = s &&& 0x07 := by
  have hb0 : s.testBit 0 = (s % 8).testBit 0 := by
    have := Nat.testBit_mod_two_pow s 3 0
    simpa using this.symm
  have hb1 : s.testBit 1 = (s % 8).testBit 1 := by
    have := Nat.testBit_mod_two_pow s 3 1
    simpa using this.symm
  have hb2 : s.testBit 2 = (s % 8).testBit 2 := by
    have := Nat.testBit_mod_two_pow s 3 2
    simpa using this.symm
  have hlt : RED_MOUSE_STATE_TO_LOCAL s < 8 := by
    rw [local_mask_mod8]
    have ha : s % 8 < 8 := Nat.mod_lt _ (by decide)
    generalize s % 8 = a at ha
    interval_cases a <;> decide
  refine ⟨rfl, hlt, ?_, ?_, ?_, ?_, ?_⟩
  · rw [hb0, local_mask_mod8]
    have ha : s % 8 < 8 := Nat.mod_lt _ (by decide)
    generalize s % 8 = a at ha
    interval_cases a <;> decide
  · rw [hb2, local_mask_mod8]
    have ha : s % 8 < 8 := Nat.mod_lt _ (by decide)
    generalize s % 8 = a at ha
    interval_cases a <;> decide
  · rw [hb1, local_mask_mod8]
    have ha : s % 8 < 8 := Nat.mod_lt _ (by decide)
    generalize s % 8 = a at ha
    interval_cases a <;> decide
  · intro i hi
    apply Nat.testBit_lt_two_pow
    calc RED_MOUSE_STATE_TO_LOCAL s < 2 ^ 3 := hlt
      _ ≤ 2 ^ i := Nat.pow_le_pow_right (by decide) hi
  · rw [(button_bits_mod8 s).2.2.2, local_mask_mod8 s]
    have ha : s % 8 < 8 := Nat.mod_lt _ (by decide)
    generalize s % 8 = a at ha
    interval_cases a <;> decide

/-- C20: with the agent masks `LBUTTON`, `MBUTTON`, `RBUTTON` non-zero and
pairwise disjoint, `agent_mask(s)` contains `LBUTTON` iff `s` has `LEFT`,
`MBUTTON` iff `s` has `MIDDLE`, `RBUTTON` iff `s` has `RIGHT`; it has no bit
outside these three masks; `agent_mask(s) = agent_mask(s & 7)`; and if the
low three bits of `s` are included in those of `t`, then `agent_mask(s)` is
included in `agent_mask(t)`. -/
theorem agent_mask_is_monotone_projection (P : Protocol) (s t : Nat)
    (hL : P.VD_AGENT_LBUTTON_MASK ≠ 0) (hM : P.VD_AGENT_MBUTTON_MASK ≠ 0)
    (hR : P.VD_AGENT_RBUTTON_MASK ≠ 0)
    (hLM : P.VD_AGENT_LBUTTON_MASK &&& P.VD_AGENT_MBUTTON_MASK = 0)
    (hLR : P.VD_AGENT_LBUTTON_MASK &&& P.VD_AGENT_RBUTTON_MASK = 0)
    (hMR : P.VD_AGENT_MBUTTON_MASK &&& P.VD_AGENT_RBUTTON_MASK = 0) :
    (mask_subset P.VD_AGENT_LBUTTON_MASK (RED_MOUSE_BUTTON_STATE_TO_AGENT P s) ↔
      s &&& SPICE_MOUSE_BUTTON_MASK_LEFT ≠ 0) ∧
    (mask_subset P.VD_AGENT_MBUTTON_MASK (RED_MOUSE_BUTTON_STATE_TO_AGENT P s) ↔
      s &&& SPICE_MOUSE_BUTTON_MASK_MIDDLE ≠ 0) ∧
    (mask_subset P.VD_AGENT_RBUTTON_MASK (RED_MOUSE_BUTTON_STATE_TO_AGENT P s) ↔
      s &&& SPICE_MOUSE_BUTTON_MASK_RIGHT ≠ 0) ∧
    mask_subset (RED_MOUSE_BUTTON_STATE_TO_AGENT P s)
      (P.VD_AGENT_LBUTTON_MASK ||| P.VD_AGENT_MBUTTON_MASK ||| P.VD_AGENT_RBUTTON_MASK) ∧
    RED_MOUSE_BUTTON_STATE_TO_AGENT P s = RED_MOUSE_BUTTON_STATE_TO_AGENT P (s &&& 0x07) ∧
    (mask_subset (s &&& 0x07) (t &&& 0x07) →
      mask_subset (RED_MOUSE_BUTTON_STATE_TO_AGENT P s) (RED_MOUSE_BUTTON_STATE_TO_AGENT P t)) := by
  have hML : P.VD_AGENT_MBUTTON_MASK &&& P.VD_AGENT_LBUTTON_MASK = 0 := by
    rw [Nat.and_comm]; exact hLM
  have hRL : P.VD_AGENT_RBUTTON_MASK &&& P.VD_AGENT_LBUTTON_MASK = 0 := by
    rw [Nat.and_comm]; exact hLR
  have hRM : P.VD_AGENT_RBUTTON_MASK &&& P.VD_AGENT_MBUTTON_MASK = 0 := by
    rw [Nat.and_comm]; exact hMR
  simp only [SPICE_MOUSE_BUTTON_MASK_LEFT, SPICE_MOUSE_BUTTON_MASK_MIDDLE,
    SPICE_MOUSE_BUTTON_MASK_RIGHT]
  have contains_iff : ∀ (X Y Z : Nat) (a b c : Bool), X ≠ 0 → X &&& Y = 0 → X &&& Z = 0 →
      ((∀ i, X.testBit i = true →
        ((a && X.testBit i) || (b && Y.testBit i) || (c && Z.testBit i)) = true) ↔
        a = true) := by
    intro X Y Z a b c hX hXY hXZ
    constructor
    · intro hall
      obtain ⟨i, hi⟩ := Nat.ne_zero_implies_bit_true hX
      have hb := hall i hi
      rw [hi, disjoint_testBit X Y hXY i hi, disjoint_testBit X Z hXZ i hi] at hb
      cases a <;> simp_all
    · intro ha i hi
      rw [ha, hi]
      rfl
  have hleft : mask_subset P.VD_AGENT_LBUTTON_MASK (RED_MOUSE_BUTTON_STATE_TO_AGENT P s) ↔
      s &&& 1 ≠ 0 := by
    rw [mask_subset_iff]
    simp only [agent_mask_testBit]
    rw [contains_iff _ _ _ _ _ _ hL hLM hLR, decide_eq_true_eq]
  have hmiddle : mask_subset P.VD_AGENT_MBUTTON_MASK (RED_MOUSE_BUTTON_STATE_TO_AGENT P s) ↔
      s &&& 2 ≠ 0 := by
    rw [mask_subset_iff]
    simp only [agent_mask_testBit]
    have hperm : ∀ i, ((decide (s &&& 1 ≠ 0) && P.VD_AGENT_LBUTTON_MASK.testBit i) ||
        (decide (s &&& 2 ≠ 0) && P.VD_AGENT_MBUTTON_MASK.testBit i) ||
        (decide (s &&& 4 ≠ 0) && P.VD_AGENT_RBUTTON_MASK.testBit i)) =
        ((decide (s &&& 2 ≠ 0) && P.VD_AGENT_MBUTTON_MASK.testBit i) ||
        (decide (s &&& 1 ≠ 0) && P.VD_AGENT_LBUTTON_MASK.testBit i) ||
        (decide (s &&& 4 ≠ 0) && P.VD_AGENT_RBUTTON_MASK.testBit i)) := by
      intro i
      rw [Bool.or_comm (decide (s &&& 1 ≠ 0) && P.VD_AGENT_LBUTTON_MASK.testBit i)]
    simp only [hperm]
    rw [contains_iff _ _ _ _ _ _ hM hML hMR, decide_eq_true_eq]
  have hright : mask_subset P.VD_AGENT_RBUTTON_MASK (RED_MOUSE_BUTTON_STATE_TO_AGENT P s) ↔
      s &&& 4 ≠ 0 := by
    rw [mask_subset_iff]
    simp only [agent_mask_testBit]
    have hperm : ∀ i, ((decide (s &&& 1 ≠ 0) && P.VD_AGENT_LBUTTON_MASK.testBit i) ||
        (decide (s &&& 2 ≠ 0) && P.VD_AGENT_MBUTTON_MASK.testBit i) ||
        (decide (s &&& 4 ≠ 0) && P.VD_AGENT_RBUTTON_MASK.testBit i)) =
        ((decide (s &&& 4 ≠ 0) && P.VD_AGENT_RBUTTON_MASK.testBit i) ||
        (decide (s &&& 1 ≠ 0) && P.VD_AGENT_LBUTTON_MASK.testBit i) ||
        (decide (s &&& 2 ≠ 0) && P.VD_AGENT_MBUTTON_MASK.testBit i)) := by
      intro i
      rw [Bool.or_comm, Bool.or_assoc]
    simp only [hperm]
    rw [contains_iff _ _ _ _ _ _ hR hRL hRM, decide_eq_true_eq]
  refine ⟨hleft, hmiddle, hright, ?_, ?_, ?_⟩
  · rw [mask_subset_iff]
    intro i hi
    rw [agent_mask_testBit] at hi
    simp only [Nat.testBit_or, Bool.or_eq_true, Bool.and_eq_true] at hi ⊢
    rcases hi with (hb | hb) | hb
    · exact Or.inl (Or.inl hb.2)
    · exact Or.inl (Or.inr hb.2)
    · exact Or.inr hb.2
  · rw [(button_bits_mod8 s).2.2.2]
    exact agent_mask_mod8 P s
  · intro h
    obtain ⟨h1, h2, h4⟩ := button_bits_of_subset s t h
    rw [mask_subset_iff]
    intro i hi
    rw [agent_mask_testBit] at hi ⊢
    simp only [Bool.or_eq_true, Bool.and_eq_true, decide_eq_true_eq] at hi ⊢
    rcases hi with (⟨ha, hb⟩ | ⟨ha, hb⟩) | ⟨ha, hb⟩
    · exact Or.inl (Or.inl ⟨h1 ha, hb⟩)
    · exact Or.inl (Or.inr ⟨h2 ha, hb⟩)
    · exact Or.inr ⟨h4 ha, hb⟩

theorem agent_mask_is_monotone_projection_witness :
    example_protocol.VD_AGENT_LBUTTON_MASK ≠ 0 ∧
    example_protocol.VD_AGENT_MBUTTON_MASK ≠ 0 ∧
    example_protocol.VD_AGENT_RBUTTON_MASK ≠ 0 ∧
    example_protocol.VD_AGENT_LBUTTON_MASK &&& example_protocol.VD_AGENT_MBUTTON_MASK = 0 ∧
    example_protocol.VD_AGENT_LBUTTON_MASK &&& example_protocol.VD_AGENT_RBUTTON_MASK = 0 ∧
    example_protocol.VD_AGENT_MBUTTON_MASK &&& example_protocol.VD_AGENT_RBUTTON_MASK = 0 ∧
    mask_subset (0x19 &&& 0x07) (0x0d &&& 0x07) ∧
    mask_subset (RED_MOUSE_BUTTON_STATE_TO_AGENT example_protocol 0x19)
      (RED_MOUSE_BUTTON_STATE_TO_AGENT example_protocol 0x0d) :=
  ⟨by decide, by decide, by decide, by decide, by decide, by decide,
   by unfold mask_subset; decide,
   (agent_mask_is_monotone_projection example_protocol 0x19 0x0d (by decide) (by decide)
     (by decide) (by decide) (by decide) (by decide)).2.2.2.2.2
     (by unfold mask_subset; decide)⟩

/-! ## LED reconciliation: claim C21 -/

/-- One lock key of `KEY_MODIFIERS`: press and release are pushed when the
bit differs, nothing otherwise; the LEDs the back-end reports stay. -/
theorem sync_lock_key_pushed (m l flag code : Nat) (k : SpiceKbdInstance)
    (hc : code % 256 = code) (hr : (code ||| 0x80) % 256 = code ||| 0x80) :
    (sync_lock_key m l flag code k).pushed =
      k.pushed ++ (if lock_bit_differs m l flag then [code, code ||| 0x80] else []) := by
  unfold sync_lock_key lock_bit_differs
  by_cases h : m &&& flag ≠ l &&& flag
  · rw [if_pos h, decide_eq_true h, if_pos rfl, kbd_push_scan_attached_pushed,
      kbd_push_scan_attached_pushed, hc, hr, List.append_assoc]
    rfl
  · rw [if_neg h, decide_eq_false h, if_neg (by decide), List.append_nil]

/-- C21: with a keyboard attached whose back-end reports the LED byte
`l = leds mod 256`, `KEY_MODIFIERS` with modifiers `m` pushes to the back-end
exactly `[code, code | 0x80]` for each lock key whose bit differs between `m`
and `l`, in the order scroll-lock (`0x46`), num-lock (`0x45`), caps-lock
(`0x3A`), that is twice as many bytes as bits differ, and starts the modifier
timer once. -/
theorem key_modifiers_reconciles_leds (P : Protocol) (s : Inputs) (k : SpiceKbdInstance)
    (m : Nat) (hk : s.channel.keyboard = some k) :
    ∃ s1 k1, inputs_channel_handle_parsed P s (Msg.KEY_MODIFIERS m) = some s1 ∧
      s1.channel.keyboard = some k1 ∧
      k1.pushed = k.pushed ++ modifier_sync_bytes P m (k.leds % 256) ∧
      (modifier_sync_bytes P m (k.leds % 256)).length
        = 2 * differing_lock_bits P m (k.leds % 256) ∧
      s1.reds.timer_starts = s.reds.timer_starts + 1 := by
  have hl : kbd_get_leds (some k) = k.leds % 256 := rfl
  have hlen : (modifier_sync_bytes P m (k.leds % 256)).length
      = 2 * differing_lock_bits P m (k.leds % 256) := by
    unfold modifier_sync_bytes differing_lock_bits
    cases lock_bit_differs m (k.leds % 256) P.SPICE_KEYBOARD_MODIFIER_FLAGS_SCROLL_LOCK <;>
      cases lock_bit_differs m (k.leds % 256) P.SPICE_KEYBOARD_MODIFIER_FLAGS_NUM_LOCK <;>
      cases lock_bit_differs m (k.leds % 256) P.SPICE_KEYBOARD_MODIFIER_FLAGS_CAPS_LOCK <;>
      rfl
  refine ⟨handle_key_modifiers P s m,
    sync_lock_key m (k.leds % 256) P.SPICE_KEYBOARD_MODIFIER_FLAGS_CAPS_LOCK
      CAPS_LOCK_SCAN_CODE
      (sync_lock_key m (k.leds % 256) P.SPICE_KEYBOARD_MODIFIER_FLAGS_NUM_LOCK
        NUM_LOCK_SCAN_CODE
        (sync_lock_key m (k.leds % 256) P.SPICE_KEYBOARD_MODIFIER_FLAGS_SCROLL_LOCK
          SCROLL_LOCK_SCAN_CODE k)),
    rfl, ?_, ?_, hlen, ?_⟩
  · simp only [handle_key_modifiers, hk, activate_modifiers_watch, hl]
  · rw [sync_lock_key_pushed _ _ _ CAPS_LOCK_SCAN_CODE _ (by decide) (by decide),
      sync_lock_key_pushed _ _ _ NUM_LOCK_SCAN_CODE _ (by decide) (by decide),
      sync_lock_key_pushed _ _ _ SCROLL_LOCK_SCAN_CODE _ (by decide) (by decide)]
    simp only [modifier_sync_bytes, SCROLL_LOCK_SCAN_CODE, NUM_LOCK_SCAN_CODE,
      CAPS_LOCK_SCAN_CODE, List.append_assoc]
  · simp only [handle_key_modifiers, hk, activate_modifiers_watch]

theorem key_modifiers_reconciles_leds_witness :
    (example_inputs.channel.keyboard = some (keyboard_attached 0) ∧
     (keyboard_attached 0).leds = 0 ∧
     modifier_sync_bytes example_protocol
       example_protocol.SPICE_KEYBOARD_MODIFIER_FLAGS_CAPS_LOCK (0 % 256) = [0x3a, 0xba] ∧
     ∃ s1 k1, inputs_channel_handle_parsed example_protocol example_inputs
         (Msg.KEY_MODIFIERS example_protocol.SPICE_KEYBOARD_MODIFIER_FLAGS_CAPS_LOCK) = some s1 ∧
       s1.channel.keyboard = some k1 ∧
       k1.pushed = [] ++ [0x3a, 0xba] ∧
       s1.reds.timer_starts = 0 + 1) ∧
    ((example_inputs_leds 4).channel.keyboard = some (keyboard_attached 4) ∧
     (keyboard_attached 4).leds = 4 ∧
     modifier_sync_bytes example_protocol
       example_protocol.SPICE_KEYBOARD_MODIFIER_FLAGS_CAPS_LOCK (4 % 256) = [] ∧
     ∃ s1 k1, inputs_channel_handle_parsed example_protocol (example_inputs_leds 4)
         (Msg.KEY_MODIFIERS example_protocol.SPICE_KEYBOARD_MODIFIER_FLAGS_CAPS_LOCK) = some s1 ∧
       s1.channel.keyboard = some k1 ∧
       k1.pushed = [] ++ [] ∧
       s1.reds.timer_starts = 0 + 1) ∧
    ((example_inputs_leds 7).channel.keyboard = some (keyboard_attached 7) ∧
     modifier_sync_bytes example_protocol 0 (7 % 256) = [0x46, 0xc6, 0x45, 0xc5, 0x3a, 0xba] ∧
     ∃ s1 k1, inputs_channel_handle_parsed example_protocol (example_inputs_leds 7)
         (Msg.KEY_MODIFIERS 0) = some s1 ∧
       s1.channel.keyboard = some k1 ∧
       k1.pushed = [] ++ [0x46, 0xc6, 0x45, 0xc5, 0x3a, 0xba]) := by
  obtain ⟨s1, k1, h1, h2, h3, _, h5⟩ := key_modifiers_reconciles_leds example_protocol
    example_inputs (keyboard_attached 0)
    example_protocol.SPICE_KEYBOARD_MODIFIER_FLAGS_CAPS_LOCK rfl
  obtain ⟨t1, j1, g1, g2, g3, _, g5⟩ := key_modifiers_reconciles_leds example_protocol
    (example_inputs_leds 4) (keyboard_attached 4)
    example_protocol.SPICE_KEYBOARD_MODIFIER_FLAGS_CAPS_LOCK rfl
  obtain ⟨u1, l1, f1, f2, f3, _, _⟩ := key_modifiers_reconciles_leds example_protocol
    (example_inputs_leds 7) (keyboard_attached 7) 0 rfl
  exact ⟨⟨rfl, rfl, by decide, s1, k1, h1, h2, h3, h5⟩,
    ⟨rfl, rfl, by decide, t1, j1, g1, g2, g3, g5⟩,
    ⟨rfl, by decide, u1, l1, f1, f2, f3⟩⟩

/-! ## Motion during migration: claims C22 and C23 -/

/-- C22, as the claim states it, fails: on a migration source with
`motion_count = 63` a `MOUSE_MOTION` makes the count 64, a multiple of 64,
and the count stays 64 instead of going back to 0. -/
theorem no_reset_on_migration_source :
    example_inputs_source.channel.src_during_migrate = true ∧
    (example_inputs_source.icc.motion_count + 1) % 64 = 0 ∧
    ∃ s1, inputs_channel_handle_parsed example_protocol example_inputs_source
        (Msg.MOUSE_MOTION 0 0 0) = some s1 ∧
      s1.icc.motion_count = 64 ∧ s1.icc.motion_count ≠ 0 :=
  ⟨rfl, rfl, _, rfl, rfl, by decide⟩

/-- C22, amended: when the increment of a handled `MOUSE_MOTION` or
`MOUSE_POSITION` makes the `uint16_t` count a multiple of 64, then on a
channel that is not a migration source one `MOUSE_MOTION_ACK` is added to the
pipe and the count is reset to 0, and on a migration source nothing is added
to the pipe and the count keeps the incremented value. -/
theorem bunch_boundary_resets_off_migration_only (P : Protocol) (s s1 : Inputs) (m : Msg)
    (hm : is_motion_msg m = true)
    (hb : ((s.icc.motion_count + 1) % 65536) % 64 = 0)
    (h : inputs_channel_handle_parsed P s m = some s1) :
    (s.channel.src_during_migrate = false →
      s1.icc.motion_count = 0 ∧ s1.icc.pipe = s.icc.pipe ++ [PipeItem.MOUSE_MOTION_ACK]) ∧
    (s.channel.src_during_migrate = true →
      s1.icc.motion_count = (s.icc.motion_count + 1) % 65536 ∧ s1.icc.pipe = s.icc.pipe) := by
  have fs := (handle_parsed_frame P s s1 m h).1
  rw [hm] at fs
  simp only [if_true] at fs
  rw [fs]
  constructor
  · intro hsrc
    simp [bump_motion_count, SPICE_INPUT_MOTION_ACK_BUNCH, hb, hsrc]
  · intro hsrc
    simp [bump_motion_count, SPICE_INPUT_MOTION_ACK_BUNCH, hsrc]

theorem bunch_boundary_resets_off_migration_only_witness :
    is_motion_msg (Msg.MOUSE_MOTION 0 0 0) = true ∧
    ((example_inputs_source.icc.motion_count + 1) % 65536) % 64 = 0 ∧
    example_inputs_source.channel.src_during_migrate = true ∧
    ∃ s1, inputs_channel_handle_parsed example_protocol example_inputs_source
        (Msg.MOUSE_MOTION 0 0 0) = some s1 ∧
      s1.icc.motion_count = (example_inputs_source.icc.motion_count + 1) % 65536 ∧
      s1.icc.pipe = example_inputs_source.icc.pipe :=
  ⟨rfl, rfl, rfl, _, rfl,
   (bunch_boundary_resets_off_migration_only example_protocol example_inputs_source _
     (Msg.MOUSE_MOTION 0 0 0) rfl rfl rfl).2 rfl⟩

/-- C23: every `MOUSE_MOTION {dx, dy, buttons}` is handled.  With a mouse
attached in `SERVER` mode the mouse gets the one call
`motion(dx, dy, 0, local(buttons))` and nothing else of the channel or the
server changes; otherwise channel and server are left as they were; neither
depends on `src_during_migrate` or on `motion_count`.  The count is
pre-incremented in every case: afterwards it is the incremented value, or 0
when that value completes a bunch on a channel that is not a migration
source.  On a migration source the pipe is left as it was. -/
theorem mouse_motion_consumed_during_migration (P : Protocol) (s : Inputs) (dx dy : Int)
    (b : Nat) :
    ∃ s1, inputs_channel_handle_parsed P s (Msg.MOUSE_MOTION dx dy b) = some s1 ∧
      (∀ mo, s.channel.mouse = some mo → s.reds.mouse_mode = MouseMode.SERVER →
        s1.channel = { s.channel with mouse := some { calls := mo.calls ++
          [MouseCall.motion dx dy 0 (RED_MOUSE_STATE_TO_LOCAL b)] } }) ∧
      (s.channel.mouse = none ∨ s.reds.mouse_mode ≠ MouseMode.SERVER →
        s1.channel = s.channel) ∧
      s1.reds = s.reds ∧
      s1.icc.motion_count =
        (if ((s.icc.motion_count + 1) % 65536) % 64 = 0 ∧ s.channel.src_during_migrate = false
          then 0 else (s.icc.motion_count + 1) % 65536) ∧
      (s.channel.src_during_migrate = true →
        s1.icc.motion_count = (s.icc.motion_count + 1) % 65536 ∧ s1.icc.pipe = s.icc.pipe) := by
  have hc := bump_motion_count_channel s
  have hr := bump_motion_count_reds s
  have hicc : (handle_mouse_motion s dx dy b).icc = (bump_motion_count s).icc :=
    (handle_parsed_frame P s _ (Msg.MOUSE_MOTION dx dy b) rfl).1
  have hcount : (bump_motion_count s).icc.motion_count =
      (if ((s.icc.motion_count + 1) % 65536) % 64 = 0 ∧ s.channel.src_during_migrate = false
        then 0 else (s.icc.motion_count + 1) % 65536) := by
    simp only [bump_motion_count, SPICE_INPUT_MOTION_ACK_BUNCH]
    split <;> rfl
  refine ⟨handle_mouse_motion s dx dy b, rfl, ?_, ?_, ?_, ?_, ?_⟩
  · intro mo hmo hmode
    simp only [handle_mouse_motion, hc, hr, hmo, hmode, if_true]
  · intro hor
    simp only [handle_mouse_motion, hc, hr]
    rcases hor with hmo | hmode
    · simp only [hmo]
      exact hc
    · cases hmo : s.channel.mouse with
      | none => exact hc
      | some mo => simp only [hmode, if_false]; exact hc
  · simp only [handle_mouse_motion, hc, hr]
    cases hmo : s.channel.mouse with
    | none => exact hr
    | some mo =>
      by_cases hmode : s.reds.mouse_mode = MouseMode.SERVER
      · simp only [hmode, if_true]
      · simp only [hmode, if_false]; exact hr
  · rw [hicc, hcount]
  · intro hsrc
    rw [hicc]
    simp [bump_motion_count, hsrc]

theorem mouse_motion_consumed_during_migration_witness :
    example_inputs_source.channel.mouse = some { calls := [] } ∧
    example_inputs_source.reds.mouse_mode = MouseMode.SERVER ∧
    example_inputs_source.channel.src_during_migrate = true ∧
    ∃ s1, inputs_channel_handle_parsed example_protocol example_inputs_source
        (Msg.MOUSE_MOTION 3 (-4) SPICE_MOUSE_BUTTON_MASK_MIDDLE) = some s1 ∧
      s1.channel = { example_inputs_source.channel with mouse := some { calls := [] ++
        [MouseCall.motion 3 (-4) 0 (RED_MOUSE_STATE_TO_LOCAL SPICE_MOUSE_BUTTON_MASK_MIDDLE)] } } ∧
      s1.icc.motion_count = (63 + 1) % 65536 ∧ s1.icc.pipe = [] := by
  obtain ⟨s1, h1, h2, _, _, _, h6⟩ := mouse_motion_consumed_during_migration example_protocol
    example_inputs_source 3 (-4) SPICE_MOUSE_BUTTON_MASK_MIDDLE
  exact ⟨rfl, rfl, rfl, s1, h1, h2 _ rfl rfl, (h6 rfl).1, (h6 rfl).2⟩

/-! ## Attaching devices: claim C24 -/

/-- C24: each of `inputs_channel_set_keyboard`, `inputs_channel_set_mouse`
and `inputs_channel_set_tablet` returns `-1` if and only if the channel
already has a handle of that type, and then leaves the channel as it was;
otherwise it returns `0` and the channel differs only in that handle, now
the given one; the keyboard bound this way has a fresh tracker: `push_ext`
false and no entry of `key` or `key_ext` pressed. -/
theorem attach_rejected_when_bound (c : InputsChannel) (keyboard : SpiceKbdInstance)
    (mouse : SpiceMouseInstance) (tablet : SpiceTabletInstance) :
    (((inputs_channel_set_keyboard c keyboard).1 = -1 ↔ c.keyboard.isSome = true) ∧
     (c.keyboard.isSome = true → (inputs_channel_set_keyboard c keyboard).2 = c) ∧
     (c.keyboard = none →
       (inputs_channel_set_keyboard c keyboard).1 = 0 ∧
       (inputs_channel_set_keyboard c keyboard).2 =
         { c with keyboard := some { keyboard with st := spice_kbd_state_new } } ∧
       spice_kbd_state_new.push_ext = false ∧ all_released spice_kbd_state_new)) ∧
    (((inputs_channel_set_mouse c mouse).1 = -1 ↔ c.mouse.isSome = true) ∧
     (c.mouse.isSome = true → (inputs_channel_set_mouse c mouse).2 = c) ∧
     (c.mouse = none →
       (inputs_channel_set_mouse c mouse).1 = 0 ∧
       (inputs_channel_set_mouse c mouse).2 = { c with mouse := some mouse })) ∧
    (((inputs_channel_set_tablet c tablet).1 = -1 ↔ c.tablet.isSome = true) ∧
     (c.tablet.isSome = true → (inputs_channel_set_tablet c tablet).2 = c) ∧
     (c.tablet = none →
       (inputs_channel_set_tablet c tablet).1 = 0 ∧
       (inputs_channel_set_tablet c tablet).2 = { c with tablet := some tablet })) := by
  have hfresh : all_released spice_kbd_state_new := ⟨fun _ => rfl, fun _ => rfl⟩
  have hk : ((inputs_channel_set_keyboard c keyboard).1 = -1 ↔ c.keyboard.isSome = true) ∧
      (c.keyboard.isSome = true → (inputs_channel_set_keyboard c keyboard).2 = c) ∧
      (c.keyboard = none →
        (inputs_channel_set_keyboard c keyboard).1 = 0 ∧
        (inputs_channel_set_keyboard c keyboard).2 =
          { c with keyboard := some { keyboard with st := spice_kbd_state_new } } ∧
        spice_kbd_state_new.push_ext = false ∧ all_released spice_kbd_state_new) := by
    cases hc : c.keyboard with
    | none =>
      refine ⟨by simp [inputs_channel_set_keyboard, hc], by simp, fun _ => ?_⟩
      exact ⟨by simp [inputs_channel_set_keyboard, hc],
        by simp [inputs_channel_set_keyboard, hc], rfl, hfresh⟩
    | some k => simp [inputs_channel_set_keyboard, hc]
  have hm : ((inputs_channel_set_mouse c mouse).1 = -1 ↔ c.mouse.isSome = true) ∧
      (c.mouse.isSome = true → (inputs_channel_set_mouse c mouse).2 = c) ∧
      (c.mouse = none →
        (inputs_channel_set_mouse c mouse).1 = 0 ∧
        (inputs_channel_set_mouse c mouse).2 = { c with mouse := some mouse }) := by
    cases hc : c.mouse with
    | none => simp [inputs_channel_set_mouse, hc]
    | some k => simp [inputs_channel_set_mouse, hc]
  have ht : ((inputs_channel_set_tablet c tablet).1 = -1 ↔ c.tablet.isSome = true) ∧
      (c.tablet.isSome = true → (inputs_channel_set_tablet c tablet).2 = c) ∧
      (c.tablet = none →
        (inputs_channel_set_tablet c tablet).1 = 0 ∧
        (inputs_channel_set_tablet c tablet).2 = { c with tablet := some tablet }) := by
    cases hc : c.tablet with
    | none => simp [inputs_channel_set_tablet, hc]
    | some k => simp [inputs_channel_set_tablet, hc]
  exact ⟨hk, hm, ht⟩

theorem attach_rejected_when_bound_witness :
    example_channel.keyboard.isSome = true ∧
    example_channel.tablet = none ∧
    (inputs_channel_set_keyboard example_channel example_keyboard_all_pressed).1 = -1 ∧
    (inputs_channel_set_keyboard example_channel example_keyboard_all_pressed).2
      = example_channel ∧
    (inputs_channel_set_tablet example_channel { calls := [] }).1 = 0 ∧
    (inputs_channel_set_tablet example_channel { calls := [] }).2
      = { example_channel with tablet := some { calls := [] } } :=
  ⟨rfl, rfl,
   (attach_rejected_when_bound example_channel example_keyboard_all_pressed
     { calls := [] } { calls := [] }).1.1.mpr rfl,
   (attach_rejected_when_bound example_channel example_keyboard_all_pressed
     { calls := [] } { calls := [] }).1.2.1 rfl,
   ((attach_rejected_when_bound example_channel example_keyboard_all_pressed
     { calls := [] } { calls := [] }).2.2.2.2 rfl).1,
   ((attach_rejected_when_bound example_channel example_keyboard_all_pressed
     { calls := [] } { calls := [] }).2.2.2.2 rfl).2⟩

/-! ## Disconnect: claim C25 -/

/-- Storing `false` never marks an entry pressed, and clears the entry
stored to. -/
theorem array_store_false (a : Fin 0x7f → Bool) (i : Nat) (j : Fin 0x7f)
    (h : array_store a i false j = true) : a j = true ∧ j.val ≠ i := by
  unfold array_store at h
  by_cases hj : j.val = i
  · rw [if_pos hj] at h
    exact absurd h (by decide)
  · rw [if_neg hj] at h
    exact ⟨h, hj⟩

/-- A byte with bit `0x80` set never marks an entry pressed. -/
theorem kbd_push_scan_release_byte (k : SpiceKbdInstance) (b : Nat)
    (hrel : (b % 256) &&& 0x80 ≠ 0) :
    (∀ j, (kbd_push_scan_attached k b).st.key j = true → k.st.key j = true) ∧
    (∀ j, (kbd_push_scan_attached k b).st.key_ext j = true → k.st.key_ext j = true) := by
  have hv : decide (b % 256 &&& 0x80 = 0) = false := decide_eq_false hrel
  unfold kbd_push_scan_attached
  by_cases h : b % 256 = 0xe0
  · simp only [h, if_true]
    exact ⟨fun j hj => hj, fun j hj => hj⟩
  · by_cases hp : k.st.push_ext = true
    · simp only [h, if_false, hp, if_true, hv]
      exact ⟨fun j hj => (array_store_false _ _ j hj).1, fun j hj => hj⟩
    · simp only [h, if_false, hp, hv]
      exact ⟨fun j hj => hj, fun j hj => (array_store_false _ _ j hj).1⟩

/-- The release byte of every position, and the extended prefix, have bit
`0x80` set and are bytes. -/
theorem release_byte_facts :
    (∀ i, i < 0x7f → ((i ||| 0x80) % 256) &&& 0x80 ≠ 0) ∧ ((0xe0 % 256) &&& 0x80 ≠ 0) := by
  decide

/-- What the first loop of `inputs_release_keys` leaves: the positions it
went over are clear in `key`, no entry has become pressed, and every byte
pushed has bit `0x80` set. -/
theorem release_key_loop_spec (n : Nat) :
    ∀ (i : Nat) (k : SpiceKbdInstance),
      (∀ j, (release_key_loop n i k).st.key j = true →
        k.st.key j = true ∧ (j.val < i ∨ i + n ≤ j.val)) ∧
      (∀ j, (release_key_loop n i k).st.key_ext j = true → k.st.key_ext j = true) ∧
      ∃ new, (release_key_loop n i k).pushed = k.pushed ++ new ∧
        ∀ b ∈ new, b &&& 0x80 ≠ 0 := by
  induction n with
  | zero =>
    intro i k
    refine ⟨fun j hj => ⟨hj, ?_⟩, fun j hj => hj, [], by simp [release_key_loop], by simp⟩
    simp only [Nat.add_zero]
    exact Nat.lt_or_ge _ _
  | succ n ih =>
    intro i k
    unfold release_key_loop
    by_cases h : i < 0x7f
    · simp only [h, dif_pos]
      by_cases hk : k.st.key ⟨i, h⟩ = true
      · simp only [hk, if_true]
        have hrel := release_byte_facts.1 i h
        have hpush := kbd_push_scan_release_byte
          { k with st := { k.st with key := array_store k.st.key i false } } (i ||| 0x80) hrel
        obtain ⟨a1, a2, new, a3, a4⟩ := ih (i + 1)
          (kbd_push_scan_attached
            { k with st := { k.st with key := array_store k.st.key i false } } (i ||| 0x80))
        refine ⟨fun j hj => ?_, fun j hj => hpush.2 j (a2 j hj), ?_⟩
        · obtain ⟨b1, b2⟩ := a1 j hj
          obtain ⟨c1, c2⟩ := array_store_false _ _ j (hpush.1 j b1)
          exact ⟨c1, by omega⟩
        · refine ⟨(i ||| 0x80) % 256 :: new, ?_, ?_⟩
          · rw [a3, kbd_push_scan_attached_pushed]
            simp
          · intro b hb
            rcases List.mem_cons.mp hb with hb | hb
            · rw [hb]; exact hrel
            · exact a4 b hb
      · simp only [hk, if_false]
        obtain ⟨a1, a2, new, a3, a4⟩ := ih (i + 1) k
        refine ⟨fun j hj => ?_, a2, new, a3, a4⟩
        obtain ⟨b1, b2⟩ := a1 j hj
        have hne : j.val ≠ i := by
          intro hji
          apply hk
          have : j = ⟨i, h⟩ := Fin.ext hji
          rw [← this]; exact b1
        exact ⟨b1, by omega⟩
    · simp only [h, dif_neg, not_false_eq_true]
      refine ⟨fun j hj => ⟨hj, ?_⟩, fun j hj => hj, [], by simp, by simp⟩
      have := j.isLt
      omega

/-- What the second loop of `inputs_release_keys` leaves: the positions it
went over are clear in `key_ext`, no entry has become pressed, and every
byte pushed has bit `0x80` set. -/
theorem release_key_ext_loop_spec (n : Nat) :
    ∀ (i : Nat) (k : SpiceKbdInstance),
      (∀ j, (release_key_ext_loop n i k).st.key_ext j = true →
        k.st.key_ext j = true ∧ (j.val < i ∨ i + n ≤ j.val)) ∧
      (∀ j, (release_key_ext_loop n i k).st.key j = true → k.st.key j = true) ∧
      ∃ new, (release_key_ext_loop n i k).pushed = k.pushed ++ new ∧
        ∀ b ∈ new, b &&& 0x80 ≠ 0 := by
  induction n with
  | zero =>
    intro i k
    refine ⟨fun j hj => ⟨hj, ?_⟩, fun j hj => hj, [], by simp [release_key_ext_loop], by simp⟩
    simp only [Nat.add_zero]
    exact Nat.lt_or_ge _ _
  | succ n ih =>
    intro i k
    unfold release_key_ext_loop
    by_cases h : i < 0x7f
    · simp only [h, dif_pos]
      by_cases hk : k.st.key_ext ⟨i, h⟩ = true
      · simp only [hk, if_true]
        have hrel := release_byte_facts.1 i h
        have hpre := kbd_push_scan_release_byte
          { k with st := { k.st with key_ext := array_store k.st.key_ext i false } } 0xe0
          release_byte_facts.2
        have hpush := kbd_push_scan_release_byte
          (kbd_push_scan_attached
            { k with st := { k.st with key_ext := array_store k.st.key_ext i false } } 0xe0)
          (i ||| 0x80) hrel
        obtain ⟨a1, a2, new, a3, a4⟩ := ih (i + 1)
          (kbd_push_scan_attached (kbd_push_scan_attached
            { k with st := { k.st with key_ext := array_store k.st.key_ext i false } } 0xe0)
            (i ||| 0x80))
        refine ⟨fun j hj => ?_, fun j hj => hpre.1 j (hpush.1 j (a2 j hj)), ?_⟩
        · obtain ⟨b1, b2⟩ := a1 j hj
          obtain ⟨c1, c2⟩ := array_store_false _ _ j (hpre.2 j (hpush.2 j b1))
          exact ⟨c1, by omega⟩
        · refine ⟨0xe0 % 256 :: (i ||| 0x80) % 256 :: new, ?_, ?_⟩
          · rw [a3, kbd_push_scan_attached_pushed, kbd_push_scan_attached_pushed]
            simp
          · intro b hb
            rcases List.mem_cons.mp hb with hb | hb
            · rw [hb]; exact release_byte_facts.2
            · rcases List.mem_cons.mp hb with hb | hb
              · rw [hb]; exact hrel
              · exact a4 b hb
      · simp only [hk, if_false]
        obtain ⟨a1, a2, new, a3, a4⟩ := ih (i + 1) k
        refine ⟨fun j hj => ?_, a2, new, a3, a4⟩
        obtain ⟨b1, b2⟩ := a1 j hj
        have hne : j.val ≠ i := by
          intro hji
          apply hk
          have : j = ⟨i, h⟩ := Fin.ext hji
          rw [← this]; exact b1
        exact ⟨b1, by omega⟩
    · simp only [h, dif_neg, not_false_eq_true]
      refine ⟨fun j hj => ⟨hj, ?_⟩, fun j hj => hj, [], by simp, by simp⟩
      have := j.isLt
      omega

/-- With no entry of `key` pressed the first loop does nothing. -/
theorem release_key_loop_idle (n : Nat) :
    ∀ (i : Nat) (k : SpiceKbdInstance), (∀ j, k.st.key j = false) →
      release_key_loop n i k = k := by
  induction n with
  | zero => intro i k _; rfl
  | succ n ih =>
    intro i k hall
    unfold release_key_loop
    by_cases h : i < 0x7f
    · simp only [h, dif_pos, hall ⟨i, h⟩, Bool.false_eq_true, if_false]
      exact ih (i + 1) k hall
    · simp only [h, dif_neg, not_false_eq_true]

/-- With no entry of `key_ext` pressed the second loop does nothing. -/
theorem release_key_ext_loop_idle (n : Nat) :
    ∀ (i : Nat) (k : SpiceKbdInstance), (∀ j, k.st.key_ext j = false) →
      release_key_ext_loop n i k = k := by
  induction n with
  | zero => intro i k _; rfl
  | succ n ih =>
    intro i k hall
    unfold release_key_ext_loop
    by_cases h : i < 0x7f
    · simp only [h, dif_pos, hall ⟨i, h⟩, Bool.false_eq_true, if_false]
      exact ih (i + 1) k hall
    · simp only [h, dif_neg, not_false_eq_true]

/-- The two loops of `inputs_release_keys` together, from any tracker
state. -/
theorem release_keys_attached_spec (k : SpiceKbdInstance) :
    all_released (release_keys_attached k).st ∧
    (∃ new, (release_keys_attached k).pushed = k.pushed ++ new ∧ ∀ b ∈ new, b &&& 0x80 ≠ 0) ∧
    release_keys_attached (release_keys_attached k) = release_keys_attached k := by
  obtain ⟨a1, a2, new1, a3, a4⟩ := release_key_loop_spec 0x7f 0 k
  obtain ⟨b1, b2, new2, b3, b4⟩ := release_key_ext_loop_spec 0x7f 0 (release_key_loop 0x7f 0 k)
  have hkey : ∀ j, (release_keys_attached k).st.key j = false := by
    intro j
    cases hj : (release_keys_attached k).st.key j with
    | false => rfl
    | true =>
      have h1 := (a1 j (b2 j hj)).2
      have := j.isLt
      omega
  have hext : ∀ j, (release_keys_attached k).st.key_ext j = false := by
    intro j
    cases hj : (release_keys_attached k).st.key_ext j with
    | false => rfl
    | true =>
      have h1 := (b1 j hj).2
      have := j.isLt
      omega
  refine ⟨⟨hkey, hext⟩, ⟨new1 ++ new2, ?_, ?_⟩, ?_⟩
  · show (release_key_ext_loop 0x7f 0 (release_key_loop 0x7f 0 k)).pushed = _
    rw [b3, a3, List.append_assoc]
  · intro b hb
    rcases List.mem_append.mp hb with hb | hb
    · exact a4 b hb
    · exact b4 b hb
  · show release_key_ext_loop 0x7f 0 (release_key_loop 0x7f 0 (release_keys_attached k)) = _
    rw [release_key_loop_idle 0x7f 0 _ hkey, release_key_ext_loop_idle 0x7f 0 _ hext]

/-- C25: with a keyboard attached, whatever its tracker state, after
`inputs_release_keys` no entry of `key` or `key_ext` is pressed; every byte
it pushed has bit `0x80` set (the `0xE0` prefixes too, so in particular every
byte other than them); and a second `inputs_release_keys` right after
changes nothing, so it pushes no byte. -/
theorem release_keys_clears_tracker (c : InputsChannel) (k : SpiceKbdInstance)
    (hk : c.keyboard = some k) :
    ∃ k1 new, (inputs_release_keys c).keyboard = some k1 ∧
      all_released k1.st ∧
      k1.pushed = k.pushed ++ new ∧ (∀ b ∈ new, b &&& 0x80 ≠ 0) ∧
      inputs_release_keys (inputs_release_keys c) = inputs_release_keys c := by
  obtain ⟨h1, ⟨new, h2, h3⟩, h4⟩ := release_keys_attached_spec k
  refine ⟨release_keys_attached k, new, ?_, h1, h2, h3, ?_⟩
  · simp only [inputs_release_keys, hk]
  · simp only [inputs_release_keys, hk, h4]

set_option maxRecDepth 100000 in
theorem release_keys_clears_tracker_witness :
    ({ example_channel with keyboard := some example_keyboard_all_pressed } :
      InputsChannel).keyboard = some example_keyboard_all_pressed ∧
    (∃ k1 new, (inputs_release_keys
        { example_channel with keyboard := some example_keyboard_all_pressed }).keyboard
        = some k1 ∧
      all_released k1.st ∧
      k1.pushed = example_keyboard_all_pressed.pushed ++ new ∧ (∀ b ∈ new, b &&& 0x80 ≠ 0) ∧
      inputs_release_keys (inputs_release_keys
        { example_channel with keyboard := some example_keyboard_all_pressed })
        = inputs_release_keys
          { example_channel with keyboard := some example_keyboard_all_pressed }) ∧
    ((release_keys_attached example_keyboard_all_pressed).pushed.take 4
      = [0x80, 0x81, 0x82, 0x83]) ∧
    (release_keys_attached example_keyboard_all_pressed).pushed.drop 0x7f
      = [0xe0, 0x80, 0xe0, 0xe0, 0xe0, 0xe1] :=
  ⟨rfl, release_keys_clears_tracker
    { example_channel with keyboard := some example_keyboard_all_pressed }
    example_keyboard_all_pressed rfl, by decide, by decide⟩

/-! ## Array bounds: claim C26 -/

/-- C26 (the code departs from the claim): `key` and `key_ext` have `0x7f`
elements, so position `0x7f`, which the bytes `0x7F` and `0xFF` select, is
past the end of either array: `kbd_push_scan` stores there on `0x7F` after a
fresh start (into `key_ext`) and on `0xFF` after the `0xE0` prefix (into
`key`), while `0x7E` is still in bounds. -/
theorem kbd_push_scan_stores_past_array_end :
    KEY_ARRAY_ELEMENTS = 0x7f ∧
    ¬ (0x7f &&& 0x7f < KEY_ARRAY_ELEMENTS) ∧ ¬ (0xff &&& 0x7f < KEY_ARRAY_ELEMENTS) ∧
    (keyboard_attached 0).overrun = false ∧
    (kbd_push_scan_attached (keyboard_attached 0) 0x7f).overrun = true ∧
    (feed_scancodes (keyboard_attached 0) [0xe0, 0xff]).overrun = true ∧
    (kbd_push_scan_attached (keyboard_attached 0) 0x7e).overrun = false := by
  decide

end Spice
